import Mathlib

set_option maxRecDepth 100000

/-!
Verification development for the CSV-driven Instagram poster
(`post_to_instagram.py`).

The script is shallowly embedded as pure Lean functions:

* a pandas `DataFrame` (read with `dtype=str, keep_default_na=False`) is a
  `Df`: a list of column names and a list of rows, each row an association
  list from column name to cell value;
* cell values are `CVal`: plain strings (the CSV cells), booleans (the
  `_to_post` helper column) and optional dates (the `_date_parsed` helper
  column, a date being an abstract `Int` in a totally ordered date space);
* external library calls (pandas date parsing, `urllib.request.urlretrieve`,
  `PIL.Image.open`, `instagrapi` upload) are oracle parameters in
  `Oracles`; ambient time (`datetime.now`) is part of `Args`;
* side effects (network calls, temp-file creation/removal, CSV saves) are
  recorded in an event trace and in explicit state (`St`), so frame
  properties ("no network call", "no temp file left behind", "file never
  written") become statements about the trace.

Machine integers never overflow here (row counts, limits), so `Nat`/`Int`
are used directly.
-/

/-- Python `str` whitespace (`str.strip()` default set, ASCII part). -/
def isPySpace (c : Char) : Bool :=
  c == ' ' || c == '\t' || c == '\n' || c == '\r' || c == '\x0b' || c == '\x0c'

/-- Python `s.strip()`. -/
def pyStrip (s : String) : String :=
  String.mk (((s.data.dropWhile isPySpace).reverse.dropWhile isPySpace).reverse)

/-- Python `s.lower()` (ASCII case folding). -/
def pyLower (s : String) : String :=
  String.mk (s.data.map Char.toLower)

/-- Python `s.startswith(p)`. -/
def pyStartsWith (s p : String) : Bool :=
  p.data.isPrefixOf s.data

/-- Python `s[:n]`. -/
def pyTake (s : String) (n : Nat) : String :=
  String.mk (s.data.take n)

/-- Python `s.split(sep)` on a one-character separator (never empty). -/
def splitCharList (sep : Char) : List Char → List (List Char)
  | [] => [[]]
  | c :: cs =>
    let r := splitCharList sep cs
    if c == sep then [] :: r
    else
      match r with
      | t :: ts => (c :: t) :: ts
      | [] => [[c]]

/-- Python `s.split("-")`. -/
def pySplitDash (s : String) : List String :=
  (splitCharList '-' s.data).map String.mk

/-- Decimal value of a digit string. -/
def digitsToNat (l : List Char) : Nat :=
  l.foldl (fun a c => a * 10 + (c.toNat - '0'.toNat)) 0

/-- Decimal rendering of a `Nat` (fuel-driven, fuel ≥ number of digits). -/
def natDigits : Nat → Nat → List Char
  | 0, _ => []
  | fuel + 1, n =>
    if n < 10 then [Char.ofNat (n + '0'.toNat)]
    else natDigits fuel (n / 10) ++ [Char.ofNat (n % 10 + '0'.toNat)]

/-- Decimal rendering of a `Nat` as a string. -/
def natToStr (n : Nat) : String :=
  String.mk (natDigits (n + 1) n)

/-- A cell of the in-memory dataframe: CSV cells are strings; the helper
column `_to_post` holds booleans; `_date_parsed` holds optional dates
(`none` models pandas `NaT`). -/
inductive CVal : Type
  | str (s : String)
  | bool (b : Bool)
  | odate (d : Option Int)
deriving DecidableEq

/-- A dataframe row: association list from column name to cell value. -/
abbrev RowT := List (String × CVal)

/-- The in-memory dataframe: column names plus rows. -/
structure Df : Type where
  cols : List String
  rows : List RowT
deriving DecidableEq

/-- Read a cell as a string (`row.get(col, "")` / missing cells read as
empty, matching `keep_default_na=False` string frames). -/
def getStrRow (r : RowT) (c : String) : String :=
  match r.lookup c with
  | some (.str s) => s
  | _ => ""

/-- Read a cell of the boolean helper column `_to_post`. -/
def getBoolRow (r : RowT) (c : String) : Bool :=
  match r.lookup c with
  | some (.bool b) => b
  | _ => false

/-- Read a cell of the optional-date helper column `_date_parsed`
(`none` = pandas `NaT`, also for a missing cell). -/
def getDateRow (r : RowT) (c : String) : Option Int :=
  match r.lookup c with
  | some (.odate d) => d
  | _ => none

/-- Row `i` of a dataframe (total; out-of-range reads an empty row). -/
def dfRow (df : Df) (i : Nat) : RowT := df.rows.getD i []

def getStrCell (df : Df) (i : Nat) (c : String) : String := getStrRow (dfRow df i) c

def getBoolCell (df : Df) (i : Nat) (c : String) : Bool := getBoolRow (dfRow df i) c

def getDateCell (df : Df) (i : Nat) (c : String) : Option Int := getDateRow (dfRow df i) c

/-- Set one cell of a row: update the entry in place when the key exists,
append it otherwise. -/
def setCellRow (r : RowT) (c : String) (v : CVal) : RowT :=
  if (r.lookup c).isSome then
    r.map (fun kv => if kv.1 == c then (kv.1, v) else kv)
  else
    r ++ [(c, v)]

/-- Model of `df.at[idx, col] = v`: set one cell, registering the column if new
(pandas `.at` creates a missing column, other rows reading as empty). -/
def dfSetCell (df : Df) (i : Nat) (c : String) (v : CVal) : Df :=
  { cols := if df.cols.contains c then df.cols else df.cols ++ [c]
    rows := df.rows.set i (setCellRow (dfRow df i) c v) }

/-- Model of `df[col] = f(row)`: assign a whole column, computed per row (overwrites
an existing column, appends a new one). -/
def dfSetCol (df : Df) (c : String) (f : RowT → CVal) : Df :=
  { cols := if df.cols.contains c then df.cols else df.cols ++ [c]
    rows := df.rows.map (fun r => setCellRow r c (f r)) }

/-- Model of `df.columns = [c.strip() for c in df.columns]`: header names are
trimmed (both in the column list and in each row's keys). -/
def trimCols (df : Df) : Df :=
  { cols := df.cols.map pyStrip
    rows := df.rows.map (·.map (fun kv => (pyStrip kv.1, kv.2))) }

/-- Model of `load_csv.is_falsey`: a `posted` value is falsy iff, after trimming and
lowercasing, it is one of `""`, `"false"`, `"0"`, `"no"`, `"n"`. -/
def is_falsey (v : String) : Bool :=
  let v := pyLower (pyStrip v)
  v == "" || v == "false" || v == "0" || v == "no" || v == "n"

/-- Model of `load_csv`: trim header names, default the `posted` and `caption`
columns to empty when missing, compute the boolean helper column
`_to_post = is_falsey(posted)`, and compute `_date_parsed` from the `date`
column via the (external, oracle) pandas parser — `NaT` (`none`) per row
when unparseable, and `NaT` everywhere when there is no `date` column. -/
def load_csv (pdParse : String → Option Int) (df : Df) : Df :=
  let df := trimCols df
  let df := if df.cols.contains "posted" then df else dfSetCol df "posted" (fun _ => .str "")
  let df := if df.cols.contains "caption" then df else dfSetCol df "caption" (fun _ => .str "")
  let df := dfSetCol df "_to_post" (fun r => .bool (is_falsey (getStrRow r "posted")))
  if df.cols.contains "date" then
    dfSetCol df "_date_parsed" (fun r => .odate (pdParse (getStrRow r "date")))
  else
    dfSetCol df "_date_parsed" (fun _ => .odate none)

/-- Model of `normalize_caption`: strip, then truncate to 2200 characters. -/
def normalize_caption (text : String) : String :=
  pyTake (pyStrip text) 2200

/-- One character of a `%Y-%m-%d` date string must be a digit. -/
def allDigits (s : String) : Bool :=
  s.data.length > 0 && s.data.all (·.isDigit)

/-- Days in a month, Gregorian calendar (as `datetime.strptime` validates). -/
def daysInMonth (y m : Nat) : Nat :=
  if m == 2 then
    if (y % 4 == 0 && y % 100 != 0) || y % 400 == 0 then 29 else 28
  else if m == 4 || m == 6 || m == 9 || m == 11 then 30
  else 31

/-- Model of `datetime.strptime(s, "%Y-%m-%d").date()` as a partial parse into the
abstract date space, encoded `y*10000 + m*100 + d` (order-preserving for
calendar dates). `none` models the `ValueError` branch. -/
def parseYmd (s : String) : Option Int :=
  match pySplitDash s with
  | [ys, ms, ds] =>
    if allDigits ys && allDigits ms && allDigits ds then
      let y := digitsToNat ys.data
      let m := digitsToNat ms.data
      let d := digitsToNat ds.data
      if 1 ≤ m && m ≤ 12 && 1 ≤ d && d ≤ daysInMonth y m then
        some (Int.ofNat (y * 10000 + m * 100 + d))
      else none
    else none
  | _ => none

/-- Model of `parse_date_or_none`: `None`/empty input gives no filter; an
unparseable value prints a warning and gives no filter (`None`). -/
def parse_date_or_none (s : Option String) : Option Int :=
  match s with
  | none => none
  | some s => if s == "" then none else parseYmd s

/-- The `_to_post` cell of row `i`. -/
def rowToPost (df : Df) (i : Nat) : Bool := getBoolCell df i "_to_post"

/-- The `_date_parsed` cell of row `i`. -/
def rowDate (df : Df) (i : Nat) : Option Int := getDateCell df i "_date_parsed"

/-- Insert into a sorted list (helper of `sortBy`). -/
def insortBy {α : Type} (le : α → α → Bool) (x : α) : List α → List α
  | [] => [x]
  | y :: ys => if le x y then x :: y :: ys else y :: insortBy le x ys

/-- Stable insertion sort, modelling `DataFrame.sort_values` by one key:
the output is ordered by `le` and is a permutation of the input. -/
def sortBy {α : Type} (le : α → α → Bool) : List α → List α
  | [] => []
  | x :: xs => insortBy le x (sortBy le xs)

/-- The comparison used by `sort_values(["_date_parsed"])`, restricted to
the rows being sorted: compare by parsed date, `NaT` first (the sorted
sublists below contain no `NaT` rows, so the `NaT` convention is
unobservable; it only makes the order total and transitive). -/
def dateLe (df : Df) (i j : Nat) : Bool :=
  match rowDate df i, rowDate df j with
  | none, _ => true
  | some _, none => false
  | some a, some b => a ≤ b

/-- Test `base["_date_parsed"] >= today` for one row (`NaT` compares false). -/
def isFutureAt (df : Df) (today : Int) (i : Nat) : Bool :=
  match rowDate df i with
  | some d => decide (today ≤ d)
  | none => false

/-- Test `base["_date_parsed"] < today` for one row (`NaT` compares false). -/
def isPastAt (df : Df) (today : Int) (i : Nat) : Bool :=
  match rowDate df i with
  | some d => decide (d < today)
  | none => false

/-- Model of `pick_next_scheduled_rows` over the indices of the filtered frame:
re-filter on `_to_post`; if the `_date_parsed` column is absent or all-NaT
take the first `limit` rows in file order; otherwise take the `limit`
date-earliest rows dated on/after `today`, falling back, when there are
none, to the `limit` date-earliest rows dated strictly before `today`.
`today` (`datetime.now().date()`) is passed explicitly. -/
def pick_next_scheduled_rows (df : Df) (idxs : List Nat) (limit : Nat) (today : Int) : List Nat :=
  let base := idxs.filter (fun i => rowToPost df i)
  if !df.cols.contains "_date_parsed" || base.all (fun i => (rowDate df i).isNone) then
    base.take limit
  else
    let fut := (sortBy (dateLe df) (base.filter (isFutureAt df today))).take limit
    if !fut.isEmpty then fut
    else (sortBy (dateLe df) (base.filter (isPastAt df today))).take limit

/-- Observable side effects of a run. `download` is the
`urllib.request.urlretrieve` network fetch in `resolve_image_path`;
`login` is `get_client`'s Instagram login; `upload` is
`cl.photo_upload`; temp events track `tempfile` files on disk;
`save` marks one `save_csv_atomically` call. -/
inductive Event : Type
  | download (url : String)
  | login
  | upload (path caption : String)
  | tempCreated (name : String)
  | tempRemoved (name : String)
  | removedOther (path : String)
  | save
deriving DecidableEq

/-- Oracles for the external collaborators: `pdParse` is
`pd.to_datetime(..., errors="coerce")` on one cell; `download url` tells
whether `urlretrieve` succeeds; `imgSize path` is `PIL.Image.open(path).size`
(`none` = the open raises); `upload k` is the outcome of the `k`-th
`cl.photo_upload` call, carrying `getattr(media, "pk", None) or ""` as a
string on success and `str(e)` on failure; `fileExists` answers
`os.path.exists` for non-temp paths. -/
structure Oracles : Type where
  pdParse : String → Option Int
  download : String → Bool
  imgSize : String → Option (Nat × Nat)
  upload : Nat → Except String String
  fileExists : String → Bool

/-- CLI arguments, environment and ambient time of one run. -/
structure Args : Type where
  imagesDir : String
  dryRun : Bool
  limit : Nat
  all : Bool
  category : Option String
  startDate : Option String
  endDate : Option String
  envUser : String
  envPass : String
  today : Int
  now : String

deriving instance DecidableEq for Except

/-- Mutable run state: the dataframe, the event trace, saved snapshots,
the temp-name counter, the set of temp files currently on disk, the loop
counters, and the Python locals `img_path`/`is_temp1`/`prep_path`, which
persist across loop iterations (stale values are visible to the `finally`
block of a later iteration). `log` records each candidate's outcome. -/
structure St : Type where
  df : Df
  events : List Event
  saves : List Df
  tempCtr : Nat
  liveTemps : List String
  uploadCtr : Nat
  attempts : Nat
  successes : Nat
  imgVar : Option (String × Bool)
  prepVar : Option String
  log : List (Nat × Except String String)
deriving DecidableEq

/-- Initial state on a loaded dataframe. -/
def initSt (df : Df) : St :=
  { df := df, events := [], saves := [], tempCtr := 0, liveTemps := [],
    uploadCtr := 0, attempts := 0, successes := 0,
    imgVar := none, prepVar := none, log := [] }

def pushEvent (st : St) (e : Event) : St := { st with events := st.events ++ [e] }

/-- Model of `os.path.exists`: temp files are tracked exactly; other paths are
answered by the oracle. -/
def pathExists (O : Oracles) (st : St) (p : String) : Bool :=
  st.liveTemps.contains p || O.fileExists p

/-- Model of `os.remove` under `contextlib.suppress`: forget a live temp file, or
record the removal of a non-temp path. -/
def removePath (st : St) (p : String) : St :=
  if st.liveTemps.contains p then
    { st with liveTemps := st.liveTemps.erase p, events := st.events ++ [.tempRemoved p] }
  else
    { st with events := st.events ++ [.removedOther p] }

/-- Allocate a fresh `tempfile` name; the file exists on disk at once
(`NamedTemporaryFile(delete=False)` / `mkstemp`). -/
def freshTemp (st : St) : String × St :=
  let name := "tmp" ++ natToStr st.tempCtr
  (name, { st with tempCtr := st.tempCtr + 1,
                   liveTemps := st.liveTemps ++ [name],
                   events := st.events ++ [.tempCreated name] })

/-- Test `url.lower().startswith(("http://", "https://"))`. -/
def isRemoteUrl (url : String) : Bool :=
  pyStartsWith (pyLower url) "http://" || pyStartsWith (pyLower url) "https://"

/-- Model of `os.path.isabs`. -/
def isAbs (p : String) : Bool := pyStartsWith p "/"

/-- Model of `os.path.join(images_dir, rel)` for a relative second component. -/
def joinPath (dir rel : String) : String := dir ++ "/" ++ rel

/-- Model of `resolve_image_path(row, images_dir)`: prefer `image_url`; a remote
URL is fetched into a fresh temp file (the temp file is created **before**
the download, so a failing download leaves it on disk and raises);
otherwise resolve against `images_dir` unless absolute; fall back to
`filename`; raise when both are missing. Returns the local path and
whether it is a temp file (`is_temp1`). -/
def resolve_image_path (O : Oracles) (row : RowT) (imagesDir : String) (st : St) :
    Except String (String × Bool) × St :=
  let url := pyStrip (getStrRow row "image_url")
  let fn := pyStrip (getStrRow row "filename")
  if url != "" then
    if isRemoteUrl url then
      let (name, st) := freshTemp st
      let st := pushEvent st (.download url)
      if O.download url then (.ok (name, true), st)
      else (.error ("download failed: " ++ url), st)
    else if isAbs url then (.ok (url, false), st)
    else (.ok (joinPath imagesDir url, false), st)
  else if fn != "" then
    if isAbs fn then (.ok (fn, false), st)
    else (.ok (joinPath imagesDir fn, false), st)
  else (.error "Row is missing both image_url and filename", st)

/-- Instagram-friendly max pixel side. -/
def MAX_SIDE : Nat := 1350

/-- Model of `prepare_image_for_instagram(path)`: open the image (raising when the
oracle cannot), return the path unchanged when both sides fit in
`MAX_SIDE`, otherwise resize into a fresh temp file and return its path
(the numeric rescaling itself is a PIL library call and not modelled). -/
def prepare_image_for_instagram (O : Oracles) (path : String) (st : St) :
    Except String String × St :=
  match O.imgSize path with
  | none => (.error ("cannot identify image file: " ++ path), st)
  | some (w, h) =>
    if max w h ≤ MAX_SIDE then (.ok path, st)
    else
      let (name, st) := freshTemp st
      (.ok name, st)

/-- The `finally` block of the candidate loop: remove `img_path` when it
was a temp download and still exists, then remove `prep_path` when it is
distinct from `img_path` and still exists — both reading the *current*
Python locals, which may be stale from an earlier iteration; each removal
is wrapped in `contextlib.suppress(Exception)` (so an unbound local is a
silent no-op). -/
def finallyCleanup (O : Oracles) (st : St) : St :=
  let st :=
    match st.imgVar with
    | some (p, true) => if pathExists O st p then removePath st p else st
    | _ => st
  match st.prepVar, st.imgVar with
  | some pp, some (ip, _) =>
    if pp != ip && pathExists O st pp then removePath st pp else st
  | _, _ => st

/-- The emitted content of `save_csv_atomically`: `df.to_csv` writes every
column of the frame, helper columns included, then the temp file is
renamed over the target (its own temp file is always moved or removed, so
it is not tracked). The backup copy is not modelled. -/
def save_csv_atomically (df : Df) : Df := df

/-- Record a publish success into the dataframe:
`posted = "TRUE"`, `posted_at = now`, `instagram_media_id = str(media_pk)`,
and clear `error` — only when that column already exists. -/
def recordSuccess (df : Df) (i : Nat) (now mediaPk : String) : Df :=
  let df := dfSetCell df i "posted" (.str "TRUE")
  let df := dfSetCell df i "posted_at" (.str now)
  let df := dfSetCell df i "instagram_media_id" (.str mediaPk)
  if df.cols.contains "error" then dfSetCell df i "error" (.str "") else df

/-- Record a publish failure into the dataframe: create the `error`
column (empty everywhere) when absent, then store the full message —
untruncated — in the row's `error` cell. -/
def recordFailure (df : Df) (i : Nat) (err : String) : Df :=
  let df := if df.cols.contains "error" then df else dfSetCol df "error" (fun _ => .str "")
  dfSetCell df i "error" (.str err)

/-- The `try` part of one candidate iteration: resolve the image, prepare
it, then either simulate (`DRY_RUN`) or upload; returns the outcome. The
Python locals `img_path`/`is_temp1`/`prep_var` are updated exactly at
their assignment points. -/
def attemptCandidate (O : Oracles) (A : Args) (row : RowT) (st : St) :
    Except String String × St :=
  match resolve_image_path O row A.imagesDir st with
  | (.error e, st) => (.error e, st)
  | (.ok (imgPath, isTemp1), st) =>
    let st := { st with imgVar := some (imgPath, isTemp1) }
    match prepare_image_for_instagram O imgPath st with
    | (.error e, st) => (.error e, st)
    | (.ok prepPath, st) =>
      let st := { st with prepVar := some prepPath }
      if A.dryRun then (.ok "DRY_RUN", st)
      else
        let caption := normalize_caption (getStrRow row "caption")
        let st := pushEvent st (.upload prepPath caption)
        let outcome := O.upload st.uploadCtr
        let st := { st with uploadCtr := st.uploadCtr + 1 }
        (outcome, st)

/-- One full candidate iteration: `try` block, success/failure recording,
`finally` cleanup, then `save_csv_atomically(df)` (modelled as appending
the dataframe snapshot to `saves`). -/
def processCandidate (O : Oracles) (A : Args) (st : St) (idx : Nat) : St :=
  let row := dfRow st.df idx
  let (outcome, st) := attemptCandidate O A row st
  let st := { st with attempts := st.attempts + 1, log := st.log ++ [(idx, outcome)] }
  let st :=
    match outcome with
    | .ok pk => { st with df := recordSuccess st.df idx A.now pk,
                          successes := st.successes + 1 }
    | .error e => { st with df := recordFailure st.df idx e }
  let st := finallyCleanup O st
  { st with saves := st.saves ++ [save_csv_atomically st.df], events := st.events ++ [.save] }

/-- Category filter conjunct of the global mask: applied only when a
non-empty `--category` was given **and** the frame has a `Category`
column; case-insensitive, trimmed equality. -/
def catPass (A : Args) (df : Df) (i : Nat) : Bool :=
  match A.category with
  | some c =>
    if c != "" && df.cols.contains "Category" then
      pyLower (pyStrip (getStrCell df i "Category")) == pyLower (pyStrip c)
    else true
  | none => true

/-- The `--start-date` conjunct: when the flag parsed, require a parsed row
date `≥ start` (`pd.notna(d) and d >= start_d`). -/
def startPass (A : Args) (df : Df) (i : Nat) : Bool :=
  match parse_date_or_none A.startDate with
  | some s =>
    if df.cols.contains "_date_parsed" then
      match rowDate df i with
      | some d => decide (s ≤ d)
      | none => false
    else true
  | none => true

/-- The `--end-date` conjunct: when the flag parsed, require a parsed row
date `≤ end`. -/
def endPass (A : Args) (df : Df) (i : Nat) : Bool :=
  match parse_date_or_none A.endDate with
  | some e =>
    if df.cols.contains "_date_parsed" then
      match rowDate df i with
      | some d => decide (d ≤ e)
      | none => false
    else true
  | none => true

/-- The global mask of `main`: `_to_post` and the three optional filters. -/
def maskAt (A : Args) (df : Df) (i : Nat) : Bool :=
  rowToPost df i && catPass A df i && startPass A df i && endPass A df i

/-- Result of one run: the process exit status (`0` normal return,
`1` = `sys.exit(1)` from `get_client`), the final state and the list of
selected candidate row indices. -/
structure Res : Type where
  exitCode : Nat
  st : St
  selected : List Nat
deriving DecidableEq

/-- Model of `main()`: load the CSV, build the mask, select candidates (all
filtered rows with `--all`, else `pick_next_scheduled_rows`), return
early — touching nothing — when nothing is selected, log in unless
`--dry-run` (exiting 1 when `IG_USERNAME`/`IG_PASSWORD` is missing,
before any row is modified), then process each candidate in order,
saving after every attempt. -/
def mainModel (O : Oracles) (A : Args) (raw : Df) : Res :=
  let df := load_csv O.pdParse raw
  let idxs := (List.range df.rows.length).filter (fun i => maskAt A df i)
  if idxs.isEmpty then
    { exitCode := 0, st := initSt df, selected := [] }
  else
    let candidates := if A.all then idxs else pick_next_scheduled_rows df idxs A.limit A.today
    if candidates.isEmpty then
      { exitCode := 0, st := initSt df, selected := [] }
    else
      if !A.dryRun && (A.envUser == "" || A.envPass == "") then
        { exitCode := 1, st := initSt df, selected := candidates }
      else
        let st := initSt df
        let st := if A.dryRun then st else pushEvent st .login
        let st := candidates.foldl (processCandidate O A) st
        { exitCode := 0, st := st, selected := candidates }

/-! ### Derived predicates and concrete fixtures -/

/-- Every key of every row is a registered column (true of any frame read
from a CSV and preserved by all frame operations). -/
def keysCovered (df : Df) : Bool :=
  df.rows.all (fun r => r.all (fun kv => df.cols.contains kv.1))

/-- Exact CSV shape: each row's keys are the header, in order. -/
def csvShape (df : Df) : Bool :=
  df.rows.all (fun r => r.map Prod.fst == df.cols)

/-- The spec invariant at one row: a truthy `posted` implies a non-empty
`instagram_media_id` and an empty `error`. -/
def invRowB (df : Df) (i : Nat) : Bool :=
  !(!is_falsey (getStrCell df i "posted")) ||
    (getStrCell df i "instagram_media_id" != "" && getStrCell df i "error" == "")

/-- Network-upload events. -/
def isUploadEv : Event → Bool
  | .upload _ _ => true
  | _ => false

/-- Login events. -/
def isLoginEv : Event → Bool
  | .login => true
  | _ => false

/-- Build a raw CSV row (all cells strings). -/
def mkRow (l : List (String × String)) : RowT := l.map (fun p => (p.1, CVal.str p.2))

/-- Oracles for a run where every external call succeeds. -/
def oraclesOk : Oracles :=
  { pdParse := parseYmd, download := fun _ => true, imgSize := fun _ => some (100, 100),
    upload := fun _ => .ok "mid123", fileExists := fun _ => false }

/-- Oracles where the remote image download fails. -/
def oraclesDlFail : Oracles :=
  { oraclesOk with download := fun _ => false }

/-- Oracles where the upload succeeds but the media object carries no
`pk`, so `getattr(media, "pk", None) or ""` is the empty string. -/
def oraclesPkEmpty : Oracles :=
  { oraclesOk with upload := fun _ => .ok "" }

/-- A failure message longer than 500 characters. -/
def longMsg : String := String.mk (List.replicate 501 'x')

/-- Oracles where the upload raises with a 501-character message. -/
def oraclesUpFailLong : Oracles :=
  { oraclesOk with upload := fun _ => .error longMsg }

/-- Baseline dry-run arguments. -/
def argsBase : Args :=
  { imagesDir := "images", dryRun := true, limit := 1, all := false,
    category := none, startDate := none, endDate := none,
    envUser := "u", envPass := "p", today := 20251012, now := "NOW" }

/-- Real-run (not dry) arguments. -/
def argsReal : Args := { argsBase with dryRun := false }

/-- Dry-run arguments with an unparseable `--start-date`. -/
def argsBanana : Args := { argsBase with startDate := some "banana" }

/-- Real-run arguments with `IG_USERNAME` unset. -/
def argsNoEnv : Args := { argsBase with dryRun := false, envUser := "" }

/-- Dry-run arguments with a valid `--start-date`. -/
def argsStart : Args := { argsBase with startDate := some "2025-01-01" }

/-- One dated, unposted row with a local image. -/
def rawA : Df :=
  { cols := ["date", "image_url", "caption", "posted"]
    rows := [mkRow [("date", "2025-10-12"), ("image_url", "a.jpg"),
                    ("caption", "hi"), ("posted", "")]] }

/-- One unposted row with a remote image URL. -/
def rawRemote : Df :=
  { cols := ["image_url", "caption", "posted"]
    rows := [mkRow [("image_url", "https://x/y.jpg"), ("caption", "hi"), ("posted", "")]] }

/-- One unposted row with no date column. -/
def rawNoDate : Df :=
  { cols := ["image_url", "caption", "posted"]
    rows := [mkRow [("image_url", "a.jpg"), ("caption", "hi"), ("posted", "")]] }

/-- A CSV without the `posted` (and `caption`) columns. -/
def rawNoPosted : Df :=
  { cols := ["image_url"]
    rows := [mkRow [("image_url", "a.jpg")]] }

/-- The spec's three-row scenario: far future, far past, today. -/
def rawSpec3 : Df :=
  { cols := ["date", "image_url", "caption", "posted"]
    rows := [mkRow [("date", "2099-01-01"), ("image_url", "a.jpg"),
                    ("caption", "a"), ("posted", "")],
             mkRow [("date", "2000-01-01"), ("image_url", "b.jpg"),
                    ("caption", "b"), ("posted", "")],
             mkRow [("date", "2025-10-12"), ("image_url", "c.jpg"),
                    ("caption", "c"), ("posted", "")]] }

/-- A fully-posted queue. -/
def rawAllPosted : Df :=
  { cols := ["date", "image_url", "caption", "posted"]
    rows := [mkRow [("date", "2025-10-12"), ("image_url", "a.jpg"),
                    ("caption", "hi"), ("posted", "TRUE")]] }

/-! ### Sorting lemmas -/

theorem insortBy_perm {α : Type} (le : α → α → Bool) (x : α) :
    ∀ l : List α, (insortBy le x l).Perm (x :: l)
  | [] => List.Perm.refl _
  | y :: ys => by
    simp only [insortBy]
    split
    · exact List.Perm.refl _
    · exact ((insortBy_perm le x ys).cons y).trans (List.Perm.swap x y ys)

theorem sortBy_perm {α : Type} (le : α → α → Bool) :
    ∀ l : List α, (sortBy le l).Perm l
  | [] => List.Perm.refl _
  | x :: xs => (insortBy_perm le x (sortBy le xs)).trans ((sortBy_perm le xs).cons x)

theorem insortBy_pairwise {α : Type} {le : α → α → Bool}
    (htr : ∀ a b c, le a b = true → le b c = true → le a c = true)
    (hto : ∀ a b, le a b = true ∨ le b a = true) (x : α) :
    ∀ {l : List α}, l.Pairwise (fun a b => le a b = true) →
      (insortBy le x l).Pairwise (fun a b => le a b = true) := by
  intro l h
  induction l with
  | nil => simpa [insortBy] using h
  | cons y ys ih =>
    rcases List.pairwise_cons.mp h with ⟨hy, hys⟩
    simp only [insortBy]
    split
    case isTrue hxy =>
      refine List.pairwise_cons.mpr ⟨?_, h⟩
      intro z hz
      rcases List.mem_cons.mp hz with rfl | hz
      · exact hxy
      · exact htr x y z hxy (hy z hz)
    case isFalse hxy =>
      refine List.pairwise_cons.mpr ⟨?_, ih hys⟩
      intro z hz
      have hz' : z ∈ x :: ys := (insortBy_perm le x ys).mem_iff.mp hz
      rcases List.mem_cons.mp hz' with rfl | hz'
      · exact (hto z y).resolve_left hxy
      · exact hy z hz'

theorem sortBy_pairwise {α : Type} {le : α → α → Bool}
    (htr : ∀ a b c, le a b = true → le b c = true → le a c = true)
    (hto : ∀ a b, le a b = true ∨ le b a = true) :
    ∀ l : List α, (sortBy le l).Pairwise (fun a b => le a b = true)
  | [] => List.Pairwise.nil
  | x :: xs => insortBy_pairwise htr hto x (sortBy_pairwise htr hto xs)

theorem mem_take_sortBy {α : Type} {le : α → α → Bool} {l : List α} {k : Nat} {j : α}
    (h : j ∈ (sortBy le l).take k) : j ∈ l :=
  (sortBy_perm le l).mem_iff.mp (List.mem_of_mem_take h)

theorem take_sortBy_ne_nil {α : Type} (le : α → α → Bool) {l : List α} {k : Nat}
    (hk : 0 < k) (hl : l ≠ []) : (sortBy le l).take k ≠ [] := by
  apply List.ne_nil_of_length_pos
  rw [List.length_take, (sortBy_perm le l).length_eq]
  have : 0 < l.length := List.length_pos.mpr hl
  omega

theorem head_take_sortBy_min {α : Type} {le : α → α → Bool}
    (htr : ∀ a b c, le a b = true → le b c = true → le a c = true)
    (hto : ∀ a b, le a b = true ∨ le b a = true) (l : List α) (k : Nat) :
    ∀ h ∈ ((sortBy le l).take k).head?, ∀ i ∈ l, le h i = true := by
  intro h hh i hi
  rw [List.head?_take] at hh
  rcases Nat.eq_zero_or_pos k with rfl | hk
  · simp at hh
  · rw [if_neg (Nat.pos_iff_ne_zero.mp hk)] at hh
    rcases hs : sortBy le l with _ | ⟨a, t⟩
    · rw [hs] at hh; simp at hh
    · rw [hs] at hh
      simp only [List.head?_cons, Option.mem_def, Option.some.injEq] at hh
      subst hh
      have hmem : i ∈ a :: t := hs ▸ ((sortBy_perm le l).mem_iff.mpr hi)
      rcases List.mem_cons.mp hmem with rfl | hmem
      · exact (hto i i).elim id id
      · have hp := sortBy_pairwise htr hto l
        rw [hs] at hp
        exact List.rel_of_pairwise_cons hp hmem

theorem dateLe_trans (df : Df) :
    ∀ a b c, dateLe df a b = true → dateLe df b c = true → dateLe df a c = true := by
  intro a b c
  unfold dateLe
  cases rowDate df a <;> cases rowDate df b <;> cases rowDate df c <;> simp <;> omega

theorem dateLe_total (df : Df) :
    ∀ a b, dateLe df a b = true ∨ dateLe df b a = true := by
  intro a b
  unfold dateLe
  cases rowDate df a <;> cases rowDate df b <;> simp <;> omega

/-! ### `pick_next_scheduled_rows` lemmas -/

theorem pick_length_le (df : Df) (idxs : List Nat) (limit : Nat) (today : Int) :
    (pick_next_scheduled_rows df idxs limit today).length ≤ limit := by
  simp only [pick_next_scheduled_rows]
  split
  · exact List.length_take_le _ _
  · split
    · exact List.length_take_le _ _
    · exact List.length_take_le _ _

theorem pick_subset (df : Df) (idxs : List Nat) (limit : Nat) (today : Int) :
    ∀ j ∈ pick_next_scheduled_rows df idxs limit today,
      j ∈ idxs.filter (fun i => rowToPost df i) := by
  intro j hj
  simp only [pick_next_scheduled_rows] at hj
  split at hj
  · exact List.mem_of_mem_take hj
  · split at hj
    · exact (List.mem_filter.mp (mem_take_sortBy hj)).1
    · exact (List.mem_filter.mp (mem_take_sortBy hj)).1

theorem pick_nodup (df : Df) (idxs : List Nat) (limit : Nat) (today : Int)
    (h : idxs.Nodup) : (pick_next_scheduled_rows df idxs limit today).Nodup := by
  have hbase : (idxs.filter (fun i => rowToPost df i)).Nodup := h.filter _
  simp only [pick_next_scheduled_rows]
  split
  · exact (List.take_sublist _ _).nodup hbase
  · split
    · exact (List.take_sublist _ _).nodup
        (((sortBy_perm _ _).symm).nodup (hbase.filter _))
    · exact (List.take_sublist _ _).nodup
        (((sortBy_perm _ _).symm).nodup (hbase.filter _))

theorem pick_nodates (df : Df) (idxs : List Nat) (limit : Nat) (today : Int)
    (h : (!df.cols.contains "_date_parsed" ||
      (idxs.filter (fun i => rowToPost df i)).all (fun i => (rowDate df i).isNone)) = true) :
    pick_next_scheduled_rows df idxs limit today
      = (idxs.filter (fun i => rowToPost df i)).take limit := by
  simp only [pick_next_scheduled_rows]
  rw [if_pos h]

theorem pick_future (df : Df) (idxs : List Nat) (limit : Nat) (today : Int)
    (h : (!df.cols.contains "_date_parsed" ||
      (idxs.filter (fun i => rowToPost df i)).all (fun i => (rowDate df i).isNone)) = false)
    (hex : ∃ i ∈ idxs.filter (fun i => rowToPost df i), isFutureAt df today i = true) :
    (0 < limit → pick_next_scheduled_rows df idxs limit today ≠ []) ∧
    (∀ j ∈ pick_next_scheduled_rows df idxs limit today, isFutureAt df today j = true) ∧
    (∀ h ∈ (pick_next_scheduled_rows df idxs limit today).head?,
      ∀ i ∈ idxs.filter (fun i => rowToPost df i), isFutureAt df today i = true →
        dateLe df h i = true) := by
  have hfl : (idxs.filter (fun i => rowToPost df i)).filter (isFutureAt df today) ≠ [] := by
    rcases hex with ⟨i, hi, hfi⟩
    intro hnil
    exact (List.filter_eq_nil.mp hnil i hi) hfi
  simp only [pick_next_scheduled_rows]
  rw [if_neg (ne_true_of_eq_false h)]
  rcases Nat.eq_zero_or_pos limit with rfl | hl
  · rw [if_neg (by simp [List.take_zero])]
    refine ⟨fun hc => absurd hc (by omega), ?_, ?_⟩
    · intro j hj
      simp [List.take_zero] at hj
    · intro hd hh
      simp [List.take_zero] at hh
  · have hne := take_sortBy_ne_nil (dateLe df) hl hfl
    rw [if_pos (by simpa [List.isEmpty_iff] using hne)]
    refine ⟨fun _ => hne, ?_, ?_⟩
    · intro j hj
      exact (List.mem_filter.mp (mem_take_sortBy hj)).2
    · intro hd hh i hi hfi
      exact head_take_sortBy_min (dateLe_trans df) (dateLe_total df) _ limit hd hh i
        (List.mem_filter.mpr ⟨hi, hfi⟩)

theorem pick_past (df : Df) (idxs : List Nat) (limit : Nat) (today : Int)
    (h : (!df.cols.contains "_date_parsed" ||
      (idxs.filter (fun i => rowToPost df i)).all (fun i => (rowDate df i).isNone)) = false)
    (hnf : ∀ i ∈ idxs.filter (fun i => rowToPost df i), isFutureAt df today i = false)
    (hex : ∃ i ∈ idxs.filter (fun i => rowToPost df i), isPastAt df today i = true) :
    (0 < limit → pick_next_scheduled_rows df idxs limit today ≠ []) ∧
    (∀ j ∈ pick_next_scheduled_rows df idxs limit today, isPastAt df today j = true) ∧
    (∀ h ∈ (pick_next_scheduled_rows df idxs limit today).head?,
      ∀ i ∈ idxs.filter (fun i => rowToPost df i), isPastAt df today i = true →
        dateLe df h i = true) := by
  have hfut : (idxs.filter (fun i => rowToPost df i)).filter (isFutureAt df today) = [] :=
    List.filter_eq_nil.mpr (fun i hi => by simp [hnf i hi])
  have hpl : (idxs.filter (fun i => rowToPost df i)).filter (isPastAt df today) ≠ [] := by
    rcases hex with ⟨i, hi, hpi⟩
    intro hnil
    exact (List.filter_eq_nil.mp hnil i hi) hpi
  simp only [pick_next_scheduled_rows]
  rw [if_neg (ne_true_of_eq_false h)]
  rw [hfut]
  simp only [sortBy, List.take_nil, List.isEmpty_nil, Bool.not_true, Bool.false_eq_true,
    if_false]
  rcases Nat.eq_zero_or_pos limit with rfl | hl
  · exact ⟨fun hc => absurd hc (by omega),
      fun j hj => by simp [List.take_zero] at hj,
      fun hd hh => by simp [List.take_zero] at hh⟩
  · refine ⟨fun _ => take_sortBy_ne_nil (dateLe df) hl hpl, ?_, ?_⟩
    · intro j hj
      exact (List.mem_filter.mp (mem_take_sortBy hj)).2
    · intro hd hh i hi hpi
      exact head_take_sortBy_min (dateLe_trans df) (dateLe_total df) _ limit hd hh i
        (List.mem_filter.mpr ⟨hi, hpi⟩)

/-! ### C1: truthy parsing of the `posted` flag -/

/-- C1 counterexample: `"maybe"` lies outside the claimed truthy set
`{"1","true","yes","y","t"}`, so the claim says the row is falsy and
eligible for posting; but `is_falsey "maybe" = false`, i.e. the code
classifies it as truthy and the row is not eligible. -/
theorem c1_counterexample :
    is_falsey "maybe" = false ∧
    pyLower (pyStrip "maybe") ∉ (["1", "true", "yes", "y", "t"] : List String) := by
  exact ⟨by decide, by decide⟩

/-- C1 (amended): `is_falsey` classifies exactly `""`, `"false"`, `"0"`,
`"no"`, `"n"` (case-insensitive, after trimming) as falsy — these rows are
eligible; every other value, the claimed truthy set included, is treated
as truthy (not eligible), and no warning is logged. -/
theorem c1_falsy_set_exact (v : String) :
    is_falsey v = true ↔
      pyLower (pyStrip v) ∈ (["", "false", "0", "no", "n"] : List String) := by
  simp [is_falsey, List.mem_cons, or_assoc]

/-! ### C2: next-scheduled selection -/

/-- C2: for every queue and every limit, `pick_next_scheduled_rows`
returns at most `limit` rows, all drawn from the filtered unposted rows;
when no date column or date value exists at all it returns the first
unposted rows in file order; when some row is dated on/after today the
result is non-empty (for positive `limit`), consists of rows dated on or
after today, and its first row carries the earliest such date; otherwise,
when only strictly-past dates exist, the same holds for the past rows. -/
theorem c2_next_scheduled_selection (df : Df) (idxs : List Nat) (limit : Nat) (today : Int) :
    (pick_next_scheduled_rows df idxs limit today).length ≤ limit ∧
    (∀ j ∈ pick_next_scheduled_rows df idxs limit today,
        j ∈ idxs.filter (fun i => rowToPost df i)) ∧
    ((!df.cols.contains "_date_parsed" ||
        (idxs.filter (fun i => rowToPost df i)).all (fun i => (rowDate df i).isNone)) = true →
      pick_next_scheduled_rows df idxs limit today
        = (idxs.filter (fun i => rowToPost df i)).take limit) ∧
    ((!df.cols.contains "_date_parsed" ||
        (idxs.filter (fun i => rowToPost df i)).all (fun i => (rowDate df i).isNone)) = false →
      (∃ i ∈ idxs.filter (fun i => rowToPost df i), isFutureAt df today i = true) →
        (0 < limit → pick_next_scheduled_rows df idxs limit today ≠ []) ∧
        (∀ j ∈ pick_next_scheduled_rows df idxs limit today, isFutureAt df today j = true) ∧
        (∀ h ∈ (pick_next_scheduled_rows df idxs limit today).head?,
          ∀ i ∈ idxs.filter (fun i => rowToPost df i), isFutureAt df today i = true →
            dateLe df h i = true)) ∧
    ((!df.cols.contains "_date_parsed" ||
        (idxs.filter (fun i => rowToPost df i)).all (fun i => (rowDate df i).isNone)) = false →
      (∀ i ∈ idxs.filter (fun i => rowToPost df i), isFutureAt df today i = false) →
      (∃ i ∈ idxs.filter (fun i => rowToPost df i), isPastAt df today i = true) →
        (0 < limit → pick_next_scheduled_rows df idxs limit today ≠ []) ∧
        (∀ j ∈ pick_next_scheduled_rows df idxs limit today, isPastAt df today j = true) ∧
        (∀ h ∈ (pick_next_scheduled_rows df idxs limit today).head?,
          ∀ i ∈ idxs.filter (fun i => rowToPost df i), isPastAt df today i = true →
            dateLe df h i = true)) :=
  ⟨pick_length_le df idxs limit today, pick_subset df idxs limit today,
   fun h => pick_nodates df idxs limit today h,
   fun h hex => pick_future df idxs limit today h hex,
   fun h hnf hex => pick_past df idxs limit today h hnf hex⟩

/-- Witness for C2 at the spec's three-row scenario (2099 / 2000 / today,
all unposted, limit 1): the selection is non-empty and only today-or-later
rows are returned. -/
theorem c2_witness :
    pick_next_scheduled_rows (load_csv parseYmd rawSpec3) [0, 1, 2] 1 20251012 ≠ [] ∧
    (∀ j ∈ pick_next_scheduled_rows (load_csv parseYmd rawSpec3) [0, 1, 2] 1 20251012,
      isFutureAt (load_csv parseYmd rawSpec3) 20251012 j = true) := by
  have h := c2_next_scheduled_selection (load_csv parseYmd rawSpec3) [0, 1, 2] 1 20251012
  have hf := h.2.2.2.1 (by decide) (by decide)
  exact ⟨hf.1 (by decide), hf.2.1⟩

/-! ### Association-row and dataframe frame lemmas -/

theorem lookup_map_update_self (c : String) (v : CVal) :
    ∀ r : RowT, (r.map (fun kv => if kv.1 == c then (kv.1, v) else kv)).lookup c
      = (r.lookup c).map (fun _ => v) := by
  intro r
  induction r with
  | nil => simp
  | cons kv t ih =>
    rcases kv with ⟨k, w⟩
    by_cases hk : k = c
    · subst hk
      simp only [List.map_cons, beq_self_eq_true, if_true, List.lookup_cons]
      simp
    · have hkc : (k == c) = false := by simpa [beq_iff_eq] using hk
      have hck : (c == k) = false := by
        simp only [beq_eq_false_iff_ne, ne_eq]
        exact fun hc => hk hc.symm
      simp only [List.map_cons, hkc, Bool.false_eq_true, if_false, List.lookup_cons, hck]
      exact ih

theorem lookup_map_update_ne {c c' : String} (v : CVal) (h : c' ≠ c) :
    ∀ r : RowT, (r.map (fun kv => if kv.1 == c then (kv.1, v) else kv)).lookup c'
      = r.lookup c' := by
  intro r
  induction r with
  | nil => simp
  | cons kv t ih =>
    rcases kv with ⟨k, w⟩
    by_cases hk : k = c
    · subst hk
      have hck : (c' == k) = false := by simpa [beq_eq_false_iff_ne] using h
      simp only [List.map_cons, beq_self_eq_true, if_true, List.lookup_cons, hck]
      exact ih
    · have hkc : (k == c) = false := by simpa [beq_iff_eq] using hk
      simp only [List.map_cons, hkc, Bool.false_eq_true, if_false, List.lookup_cons]
      cases hck : (c' == k) with
      | true => rfl
      | false => exact ih

theorem lookup_append_single_self (c : String) (v : CVal) :
    ∀ r : RowT, r.lookup c = none → (r ++ [(c, v)]).lookup c = some v := by
  intro r
  induction r with
  | nil =>
    intro _
    simp [List.lookup]
  | cons kv t ih =>
    rcases kv with ⟨k, w⟩
    intro h
    cases hck : (c == k) with
    | true => simp [List.lookup_cons, hck] at h
    | false =>
      simp only [List.lookup_cons, hck] at h
      simp only [List.cons_append, List.lookup_cons, hck]
      exact ih h

theorem lookup_append_single_ne {c c' : String} (v : CVal) (h : c' ≠ c) :
    ∀ r : RowT, (r ++ [(c, v)]).lookup c' = r.lookup c' := by
  intro r
  induction r with
  | nil =>
    have hck : (c' == c) = false := by simpa [beq_eq_false_iff_ne] using h
    simp [List.lookup, hck]
  | cons kv t ih =>
    rcases kv with ⟨k, w⟩
    cases hck : (c' == k) with
    | true => simp [List.lookup_cons, hck]
    | false =>
      simp only [List.cons_append, List.lookup_cons, hck]
      exact ih

theorem lookup_setCellRow_self (r : RowT) (c : String) (v : CVal) :
    (setCellRow r c v).lookup c = some v := by
  unfold setCellRow
  split
  case isTrue h =>
    rw [lookup_map_update_self]
    rcases hv : r.lookup c with _ | w
    · rw [hv] at h; simp at h
    · simp
  case isFalse h =>
    apply lookup_append_single_self
    rcases hv : r.lookup c with _ | w
    · rfl
    · exact absurd (by simp [hv]) h

theorem lookup_setCellRow_ne (r : RowT) {c c' : String} (v : CVal) (h : c' ≠ c) :
    (setCellRow r c v).lookup c' = r.lookup c' := by
  unfold setCellRow
  split
  · exact lookup_map_update_ne v h r
  · exact lookup_append_single_ne v h r

theorem contains_iff_memS {l : List String} {a : String} : l.contains a = true ↔ a ∈ l :=
  List.elem_iff

theorem getStrRow_setCellRow_self (r : RowT) (c : String) (s : String) :
    getStrRow (setCellRow r c (.str s)) c = s := by
  unfold getStrRow
  rw [lookup_setCellRow_self]

theorem getStrRow_setCellRow_ne (r : RowT) {c c' : String} (v : CVal) (h : c' ≠ c) :
    getStrRow (setCellRow r c v) c' = getStrRow r c' := by
  unfold getStrRow
  rw [lookup_setCellRow_ne r v h]

theorem getBoolRow_setCellRow_self (r : RowT) (c : String) (b : Bool) :
    getBoolRow (setCellRow r c (.bool b)) c = b := by
  unfold getBoolRow
  rw [lookup_setCellRow_self]

theorem getBoolRow_setCellRow_ne (r : RowT) {c c' : String} (v : CVal) (h : c' ≠ c) :
    getBoolRow (setCellRow r c v) c' = getBoolRow r c' := by
  unfold getBoolRow
  rw [lookup_setCellRow_ne r v h]

theorem getDateRow_setCellRow_self (r : RowT) (c : String) (d : Option Int) :
    getDateRow (setCellRow r c (.odate d)) c = d := by
  unfold getDateRow
  rw [lookup_setCellRow_self]

theorem getDateRow_setCellRow_ne (r : RowT) {c c' : String} (v : CVal) (h : c' ≠ c) :
    getDateRow (setCellRow r c v) c' = getDateRow r c' := by
  unfold getDateRow
  rw [lookup_setCellRow_ne r v h]

theorem dfRow_oob {df : Df} {i : Nat} (h : df.rows.length ≤ i) : dfRow df i = [] := by
  unfold dfRow
  rw [List.getD_eq_getElem?_getD, List.getElem?_eq_none h]
  rfl

theorem dfRow_lt {df : Df} {i : Nat} (h : i < df.rows.length) :
    dfRow df i = df.rows[i] := by
  unfold dfRow
  rw [List.getD_eq_getElem?_getD, List.getElem?_eq_getElem h]
  rfl

theorem dfRow_mem {df : Df} {i : Nat} (h : i < df.rows.length) : dfRow df i ∈ df.rows := by
  rw [dfRow_lt h]
  exact List.getElem_mem h

theorem length_rows_dfSetCell (df : Df) (j : Nat) (c : String) (v : CVal) :
    (dfSetCell df j c v).rows.length = df.rows.length :=
  List.length_set df.rows j _

theorem length_rows_dfSetCol (df : Df) (c : String) (f : RowT → CVal) :
    (dfSetCol df c f).rows.length = df.rows.length :=
  List.length_map df.rows _

theorem dfRow_dfSetCell_ne {df : Df} {i j : Nat} (c : String) (v : CVal) (h : i ≠ j) :
    dfRow (dfSetCell df j c v) i = dfRow df i := by
  unfold dfRow dfSetCell
  rw [List.getD_eq_getElem?_getD, List.getD_eq_getElem?_getD]
  simp only
  rw [List.getElem?_set_ne (Ne.symm h)]

theorem dfRow_dfSetCell_self_lt {df : Df} {j : Nat} (c : String) (v : CVal)
    (hj : j < df.rows.length) :
    dfRow (dfSetCell df j c v) j = setCellRow (dfRow df j) c v := by
  unfold dfRow dfSetCell
  rw [List.getD_eq_getElem?_getD]
  simp only
  rw [List.getElem?_set_self hj]
  rfl

theorem dfSetCell_rows_oob {df : Df} {j : Nat} (c : String) (v : CVal)
    (hj : df.rows.length ≤ j) :
    (dfSetCell df j c v).rows = df.rows := by
  unfold dfSetCell
  simp only
  rw [List.set_eq_of_length_le hj]

theorem dfRow_dfSetCol_lt {df : Df} {i : Nat} (c : String) (f : RowT → CVal)
    (hi : i < df.rows.length) :
    dfRow (dfSetCol df c f) i = setCellRow (dfRow df i) c (f (dfRow df i)) := by
  unfold dfRow dfSetCol
  rw [List.getD_eq_getElem?_getD]
  simp only
  rw [List.getElem?_map, List.getElem?_eq_getElem hi, List.getD_eq_getElem?_getD,
      List.getElem?_eq_getElem hi]
  rfl

theorem getStrCell_dfSetCell_ne_row {df : Df} {i j : Nat} (c c' : String) (v : CVal)
    (h : i ≠ j) :
    getStrCell (dfSetCell df j c v) i c' = getStrCell df i c' := by
  unfold getStrCell
  rw [dfRow_dfSetCell_ne c v h]

theorem getStrCell_dfSetCell_ne_col {df : Df} (i j : Nat) {c c' : String} (v : CVal)
    (h : c' ≠ c) :
    getStrCell (dfSetCell df j c v) i c' = getStrCell df i c' := by
  by_cases hij : i = j
  · subst hij
    by_cases hlen : i < df.rows.length
    · unfold getStrCell
      rw [dfRow_dfSetCell_self_lt c v hlen]
      exact getStrRow_setCellRow_ne _ v h
    · unfold getStrCell dfRow
      rw [dfSetCell_rows_oob c v (le_of_not_lt hlen)]
  · exact getStrCell_dfSetCell_ne_row c c' v hij

theorem getStrCell_dfSetCell_self {df : Df} {j : Nat} (c s : String)
    (hj : j < df.rows.length) :
    getStrCell (dfSetCell df j c (.str s)) j c = s := by
  unfold getStrCell
  rw [dfRow_dfSetCell_self_lt c _ hj]
  exact getStrRow_setCellRow_self _ c s

theorem getStrCell_dfSetCol_ne_col {df : Df} (i : Nat) {c c' : String} (f : RowT → CVal)
    (h : c' ≠ c) :
    getStrCell (dfSetCol df c f) i c' = getStrCell df i c' := by
  by_cases hlen : i < df.rows.length
  · unfold getStrCell
    rw [dfRow_dfSetCol_lt c f hlen]
    exact getStrRow_setCellRow_ne _ _ h
  · unfold getStrCell
    rw [dfRow_oob (le_of_not_lt hlen),
        dfRow_oob (by rw [length_rows_dfSetCol]; exact le_of_not_lt hlen)]

theorem getStrCell_dfSetCol_self_str {df : Df} {i : Nat} (c s : String)
    (hi : i < df.rows.length) :
    getStrCell (dfSetCol df c (fun _ => .str s)) i c = s := by
  unfold getStrCell
  rw [dfRow_dfSetCol_lt c _ hi]
  exact getStrRow_setCellRow_self _ c s

theorem getBoolCell_dfSetCol_self {df : Df} {i : Nat} (c : String) (f : RowT → Bool)
    (hi : i < df.rows.length) :
    getBoolCell (dfSetCol df c (fun r => .bool (f r))) i c = f (dfRow df i) := by
  unfold getBoolCell
  rw [dfRow_dfSetCol_lt c _ hi]
  exact getBoolRow_setCellRow_self _ c _

theorem getBoolCell_dfSetCol_ne_col {df : Df} (i : Nat) {c c' : String} (f : RowT → CVal)
    (h : c' ≠ c) :
    getBoolCell (dfSetCol df c f) i c' = getBoolCell df i c' := by
  by_cases hlen : i < df.rows.length
  · unfold getBoolCell
    rw [dfRow_dfSetCol_lt c f hlen]
    exact getBoolRow_setCellRow_ne _ _ h
  · unfold getBoolCell
    rw [dfRow_oob (le_of_not_lt hlen),
        dfRow_oob (by rw [length_rows_dfSetCol]; exact le_of_not_lt hlen)]

theorem getDateCell_dfSetCol_self {df : Df} {i : Nat} (c : String) (f : RowT → Option Int)
    (hi : i < df.rows.length) :
    getDateCell (dfSetCol df c (fun r => .odate (f r))) i c = f (dfRow df i) := by
  unfold getDateCell
  rw [dfRow_dfSetCol_lt c _ hi]
  exact getDateRow_setCellRow_self _ c _

theorem mem_cols_dfSetCell {df : Df} (j : Nat) (c : String) (v : CVal) (a : String) :
    a ∈ (dfSetCell df j c v).cols ↔ a ∈ df.cols ∨ a = c := by
  unfold dfSetCell
  simp only
  split
  case isTrue h =>
    constructor
    · exact Or.inl
    · rintro (h' | rfl)
      · exact h'
      · exact contains_iff_memS.mp h
  case isFalse h =>
    simp [List.mem_append]

theorem mem_cols_dfSetCol {df : Df} (c : String) (f : RowT → CVal) (a : String) :
    a ∈ (dfSetCol df c f).cols ↔ a ∈ df.cols ∨ a = c := by
  unfold dfSetCol
  simp only
  split
  case isTrue h =>
    constructor
    · exact Or.inl
    · rintro (h' | rfl)
      · exact h'
      · exact contains_iff_memS.mp h
  case isFalse h =>
    simp [List.mem_append]

/-! ### `keysCovered` and `load_csv` lemmas -/

theorem lookup_some_key_mem {r : RowT} {c : String} {v : CVal}
    (h : r.lookup c = some v) : (c, v) ∈ r := by
  induction r with
  | nil => simp [List.lookup] at h
  | cons kv t ih =>
    rcases kv with ⟨k, w⟩
    cases hck : (c == k) with
    | true =>
      simp only [List.lookup_cons, hck, Option.some.injEq] at h
      have : c = k := beq_iff_eq.mp hck
      subst this
      subst h
      exact List.mem_cons_self _ _
    | false =>
      simp only [List.lookup_cons, hck] at h
      exact List.mem_cons_of_mem _ (ih h)

theorem keysCovered_iff {df : Df} :
    keysCovered df = true ↔ ∀ r ∈ df.rows, ∀ kv ∈ r, kv.1 ∈ df.cols := by
  unfold keysCovered
  simp only [List.all_eq_true]
  constructor
  · intro h r hr kv hkv
    exact contains_iff_memS.mp (h r hr kv hkv)
  · intro h r hr kv hkv
    exact contains_iff_memS.mpr (h r hr kv hkv)

theorem getStrCell_empty_of_not_col {df : Df} (hkc : keysCovered df = true) {c : String}
    (hc : c ∉ df.cols) (i : Nat) : getStrCell df i c = "" := by
  unfold getStrCell getStrRow
  cases h : (dfRow df i).lookup c with
  | none => rfl
  | some v =>
    exfalso
    by_cases hlen : i < df.rows.length
    · exact hc (keysCovered_iff.mp hkc _ (dfRow_mem hlen) _ (lookup_some_key_mem h))
    · rw [dfRow_oob (le_of_not_lt hlen)] at h
      simp [List.lookup] at h

theorem setCellRow_key_mem {r : RowT} {c : String} {v : CVal} :
    ∀ kv ∈ setCellRow r c v, kv.1 ∈ r.map Prod.fst ∨ kv.1 = c := by
  intro kv hkv
  unfold setCellRow at hkv
  split at hkv
  · rcases List.mem_map.mp hkv with ⟨kv0, hkv0, heq⟩
    left
    have : kv.1 = kv0.1 := by
      subst heq
      split
      · rfl
      · rfl
    rw [this]
    exact List.mem_map.mpr ⟨kv0, hkv0, rfl⟩
  · rcases List.mem_append.mp hkv with h | h
    · exact Or.inl (List.mem_map.mpr ⟨kv, h, rfl⟩)
    · simp only [List.mem_singleton] at h
      subst h
      exact Or.inr rfl

theorem keysCovered_dfSetCell {df : Df} (hk : keysCovered df = true) (j : Nat)
    (c : String) (v : CVal) : keysCovered (dfSetCell df j c v) = true := by
  rw [keysCovered_iff]
  intro r hr kv hkv
  rw [mem_cols_dfSetCell]
  have hr' : r ∈ df.rows ∨ r = setCellRow (dfRow df j) c v := by
    unfold dfSetCell at hr
    exact List.mem_or_eq_of_mem_set hr
  rcases hr' with hr' | rfl
  · exact Or.inl (keysCovered_iff.mp hk r hr' kv hkv)
  · rcases setCellRow_key_mem kv hkv with h | h
    · rcases List.mem_map.mp h with ⟨kv0, hkv0, heq⟩
      by_cases hlen : j < df.rows.length
      · exact Or.inl (heq ▸ keysCovered_iff.mp hk _ (dfRow_mem hlen) kv0 hkv0)
      · rw [dfRow_oob (le_of_not_lt hlen)] at hkv0
        simp at hkv0
    · exact Or.inr h

theorem keysCovered_dfSetCol {df : Df} (hk : keysCovered df = true)
    (c : String) (f : RowT → CVal) : keysCovered (dfSetCol df c f) = true := by
  rw [keysCovered_iff]
  intro r hr kv hkv
  rw [mem_cols_dfSetCol]
  unfold dfSetCol at hr
  simp only at hr
  rcases List.mem_map.mp hr with ⟨r0, hr0, rfl⟩
  rcases setCellRow_key_mem kv hkv with h | h
  · rcases List.mem_map.mp h with ⟨kv0, hkv0, heq⟩
    exact Or.inl (heq ▸ keysCovered_iff.mp hk r0 hr0 kv0 hkv0)
  · exact Or.inr h

theorem keysCovered_trimCols {df : Df} (hk : keysCovered df = true) :
    keysCovered (trimCols df) = true := by
  rw [keysCovered_iff]
  intro r hr kv hkv
  unfold trimCols at hr ⊢
  simp only at hr ⊢
  rcases List.mem_map.mp hr with ⟨r0, hr0, rfl⟩
  rcases List.mem_map.mp hkv with ⟨kv0, hkv0, rfl⟩
  exact List.mem_map.mpr ⟨kv0.1, keysCovered_iff.mp hk r0 hr0 kv0 hkv0, rfl⟩

theorem keysCovered_addIf {df : Df} (hk : keysCovered df = true) (c : String)
    (f : RowT → CVal) :
    keysCovered (if df.cols.contains c then df else dfSetCol df c f) = true := by
  split
  · exact hk
  · exact keysCovered_dfSetCol hk _ _

theorem keysCovered_load_csv {raw : Df} (hk : keysCovered raw = true)
    (pdParse : String → Option Int) : keysCovered (load_csv pdParse raw) = true := by
  simp only [load_csv]
  split <;> (try split) <;> (try split) <;>
    repeat
      first
      | exact keysCovered_trimCols hk
      | apply keysCovered_dfSetCol

theorem length_rows_trimCols (df : Df) : (trimCols df).rows.length = df.rows.length :=
  List.length_map _ _

theorem length_rows_addIf (df : Df) (c : String) (f : RowT → CVal) :
    (if df.cols.contains c then df else dfSetCol df c f).rows.length = df.rows.length := by
  split
  · rfl
  · exact length_rows_dfSetCol _ _ _

theorem load_csv_length (pdParse : String → Option Int) (raw : Df) :
    (load_csv pdParse raw).rows.length = raw.rows.length := by
  simp only [load_csv]
  split <;> (try split) <;> (try split) <;>
    simp [length_rows_dfSetCol, length_rows_trimCols]

theorem load_csv_has_date_parsed (pdParse : String → Option Int) (raw : Df) :
    "_date_parsed" ∈ (load_csv pdParse raw).cols := by
  simp only [load_csv]
  split <;> (try split) <;> (try split) <;>
    exact (mem_cols_dfSetCol _ _ _).mpr (Or.inr rfl)

theorem rowToPost_after_helpers (d2 : Df) (gd : RowT → Option Int) (i : Nat)
    (h : i < d2.rows.length) :
    rowToPost (dfSetCol
        (dfSetCol d2 "_to_post" (fun r => .bool (is_falsey (getStrRow r "posted"))))
        "_date_parsed" (fun r => .odate (gd r))) i
      = is_falsey (getStrCell (dfSetCol
          (dfSetCol d2 "_to_post" (fun r => .bool (is_falsey (getStrRow r "posted"))))
          "_date_parsed" (fun r => .odate (gd r))) i "posted") := by
  unfold rowToPost
  rw [getBoolCell_dfSetCol_ne_col i _ (by decide)]
  rw [getBoolCell_dfSetCol_self "_to_post" (fun r => is_falsey (getStrRow r "posted")) h]
  rw [getStrCell_dfSetCol_ne_col i _ (by decide : ("posted" : String) ≠ "_date_parsed")]
  rw [getStrCell_dfSetCol_ne_col i _ (by decide : ("posted" : String) ≠ "_to_post")]
  rfl

theorem rowToPost_load_csv (pdParse : String → Option Int) (raw : Df) (i : Nat)
    (h : i < raw.rows.length) :
    rowToPost (load_csv pdParse raw) i
      = is_falsey (getStrCell (load_csv pdParse raw) i "posted") := by
  simp only [load_csv]
  split <;> (try split) <;> (try split) <;>
    exact rowToPost_after_helpers _ _ i
      (by simp only [length_rows_dfSetCol, length_rows_trimCols]; exact h)

/-! ### `recordSuccess` / `recordFailure` lemmas -/

theorem getStrCell_oob {df : Df} {i : Nat} (h : df.rows.length ≤ i) (c : String) :
    getStrCell df i c = "" := by
  unfold getStrCell
  rw [dfRow_oob h]
  rfl

theorem recordSuccess_posted {df : Df} {j : Nat} (now pk : String)
    (hj : j < df.rows.length) :
    getStrCell (recordSuccess df j now pk) j "posted" = "TRUE" := by
  simp only [recordSuccess]
  have h1 : j < (dfSetCell df j "posted" (.str "TRUE")).rows.length := by
    rw [length_rows_dfSetCell]; exact hj
  have h2 : j < (dfSetCell (dfSetCell df j "posted" (.str "TRUE")) j "posted_at"
      (.str now)).rows.length := by
    rw [length_rows_dfSetCell, length_rows_dfSetCell]; exact hj
  split
  · rw [getStrCell_dfSetCell_ne_col j j _ (by decide),
        getStrCell_dfSetCell_ne_col j j _ (by decide),
        getStrCell_dfSetCell_ne_col j j _ (by decide)]
    exact getStrCell_dfSetCell_self "posted" "TRUE" hj
  · rw [getStrCell_dfSetCell_ne_col j j _ (by decide),
        getStrCell_dfSetCell_ne_col j j _ (by decide)]
    exact getStrCell_dfSetCell_self "posted" "TRUE" hj

theorem recordSuccess_posted_at {df : Df} {j : Nat} (now pk : String)
    (hj : j < df.rows.length) :
    getStrCell (recordSuccess df j now pk) j "posted_at" = now := by
  simp only [recordSuccess]
  have h1 : j < (dfSetCell df j "posted" (.str "TRUE")).rows.length := by
    rw [length_rows_dfSetCell]; exact hj
  split
  · rw [getStrCell_dfSetCell_ne_col j j _ (by decide),
        getStrCell_dfSetCell_ne_col j j _ (by decide)]
    exact getStrCell_dfSetCell_self "posted_at" now h1
  · rw [getStrCell_dfSetCell_ne_col j j _ (by decide)]
    exact getStrCell_dfSetCell_self "posted_at" now h1

theorem recordSuccess_media {df : Df} {j : Nat} (now pk : String)
    (hj : j < df.rows.length) :
    getStrCell (recordSuccess df j now pk) j "instagram_media_id" = pk := by
  simp only [recordSuccess]
  have h2 : j < (dfSetCell (dfSetCell df j "posted" (.str "TRUE")) j "posted_at"
      (.str now)).rows.length := by
    rw [length_rows_dfSetCell, length_rows_dfSetCell]; exact hj
  split
  · rw [getStrCell_dfSetCell_ne_col j j _ (by decide)]
    exact getStrCell_dfSetCell_self "instagram_media_id" pk h2
  · exact getStrCell_dfSetCell_self "instagram_media_id" pk h2

theorem keysCovered_recordSuccess {df : Df} (hk : keysCovered df = true) (j : Nat)
    (now pk : String) : keysCovered (recordSuccess df j now pk) = true := by
  simp only [recordSuccess]
  split
  · exact keysCovered_dfSetCell
      (keysCovered_dfSetCell (keysCovered_dfSetCell (keysCovered_dfSetCell hk _ _ _)
        _ _ _) _ _ _) _ _ _
  · exact keysCovered_dfSetCell
      (keysCovered_dfSetCell (keysCovered_dfSetCell hk _ _ _) _ _ _) _ _ _

theorem recordSuccess_error {df : Df} {j : Nat} (now pk : String)
    (hj : j < df.rows.length) (hk : keysCovered df = true) :
    getStrCell (recordSuccess df j now pk) j "error" = "" := by
  simp only [recordSuccess]
  have h3 : j < (dfSetCell (dfSetCell (dfSetCell df j "posted" (.str "TRUE")) j "posted_at"
      (.str now)) j "instagram_media_id" (.str pk)).rows.length := by
    rw [length_rows_dfSetCell, length_rows_dfSetCell, length_rows_dfSetCell]; exact hj
  split
  case isTrue h => exact getStrCell_dfSetCell_self "error" "" h3
  case isFalse h =>
    have hk3 : keysCovered (dfSetCell (dfSetCell (dfSetCell df j "posted" (.str "TRUE"))
        j "posted_at" (.str now)) j "instagram_media_id" (.str pk)) = true :=
      keysCovered_dfSetCell (keysCovered_dfSetCell (keysCovered_dfSetCell hk _ _ _) _ _ _) _ _ _
    exact getStrCell_empty_of_not_col hk3 (fun hc => h (contains_iff_memS.mpr hc)) j

theorem recordSuccess_frame {df : Df} {j : Nat} (now pk : String) :
    ∀ i, i ≠ j → ∀ c, getStrCell (recordSuccess df j now pk) i c = getStrCell df i c := by
  intro i hij c
  simp only [recordSuccess]
  split
  · rw [getStrCell_dfSetCell_ne_row _ _ _ hij, getStrCell_dfSetCell_ne_row _ _ _ hij,
        getStrCell_dfSetCell_ne_row _ _ _ hij, getStrCell_dfSetCell_ne_row _ _ _ hij]
  · rw [getStrCell_dfSetCell_ne_row _ _ _ hij, getStrCell_dfSetCell_ne_row _ _ _ hij,
        getStrCell_dfSetCell_ne_row _ _ _ hij]

theorem recordSuccess_length {df : Df} (j : Nat) (now pk : String) :
    (recordSuccess df j now pk).rows.length = df.rows.length := by
  simp only [recordSuccess]
  split
  · rw [length_rows_dfSetCell, length_rows_dfSetCell, length_rows_dfSetCell,
        length_rows_dfSetCell]
  · rw [length_rows_dfSetCell, length_rows_dfSetCell, length_rows_dfSetCell]

theorem recordSuccess_cols_mono {df : Df} (j : Nat) (now pk : String) :
    ∀ c ∈ df.cols, c ∈ (recordSuccess df j now pk).cols := by
  intro c hc
  simp only [recordSuccess]
  split
  · exact (mem_cols_dfSetCell _ _ _ _).mpr (Or.inl ((mem_cols_dfSetCell _ _ _ _).mpr
      (Or.inl ((mem_cols_dfSetCell _ _ _ _).mpr (Or.inl ((mem_cols_dfSetCell _ _ _ _).mpr
        (Or.inl hc)))))))
  · exact (mem_cols_dfSetCell _ _ _ _).mpr (Or.inl ((mem_cols_dfSetCell _ _ _ _).mpr
      (Or.inl ((mem_cols_dfSetCell _ _ _ _).mpr (Or.inl hc)))))

theorem recordFailure_error {df : Df} {j : Nat} (err : String)
    (hj : j < df.rows.length) :
    getStrCell (recordFailure df j err) j "error" = err := by
  simp only [recordFailure]
  split
  · exact getStrCell_dfSetCell_self "error" err hj
  · exact getStrCell_dfSetCell_self "error" err
      (by rw [length_rows_dfSetCol]; exact hj)

theorem recordFailure_other_col {df : Df} {j : Nat} (err : String) :
    ∀ c, c ≠ "error" → getStrCell (recordFailure df j err) j c = getStrCell df j c := by
  intro c hc
  simp only [recordFailure]
  split
  · exact getStrCell_dfSetCell_ne_col _ _ _ hc
  · rw [getStrCell_dfSetCell_ne_col _ _ _ hc]
    exact getStrCell_dfSetCol_ne_col _ _ hc

theorem recordFailure_frame {df : Df} {j : Nat} (err : String)
    (hk : keysCovered df = true) :
    ∀ i, i ≠ j → ∀ c, getStrCell (recordFailure df j err) i c = getStrCell df i c := by
  intro i hij c
  by_cases hc : c = "error"
  · subst hc
    simp only [recordFailure]
    split
    next h => exact getStrCell_dfSetCell_ne_row _ _ _ hij
    next h =>
      rw [getStrCell_dfSetCell_ne_row _ _ _ hij]
      by_cases hlen : i < df.rows.length
      · rw [getStrCell_dfSetCol_self_str "error" "" hlen]
        exact (getStrCell_empty_of_not_col hk
          (fun hcs => h (contains_iff_memS.mpr hcs)) i).symm
      · rw [getStrCell_oob (by rw [length_rows_dfSetCol]; exact le_of_not_lt hlen),
            getStrCell_oob (le_of_not_lt hlen)]
  · simp only [recordFailure]
    split
    · exact getStrCell_dfSetCell_ne_row _ _ _ hij
    · rw [getStrCell_dfSetCell_ne_row _ _ _ hij]
      exact getStrCell_dfSetCol_ne_col _ _ hc

theorem recordFailure_has_error_col {df : Df} (j : Nat) (err : String) :
    "error" ∈ (recordFailure df j err).cols := by
  simp only [recordFailure]
  exact (mem_cols_dfSetCell _ _ _ _).mpr (Or.inr rfl)

theorem recordFailure_length {df : Df} (j : Nat) (err : String) :
    (recordFailure df j err).rows.length = df.rows.length := by
  simp only [recordFailure]
  split
  · rw [length_rows_dfSetCell]
  · rw [length_rows_dfSetCell, length_rows_dfSetCol]

theorem keysCovered_recordFailure {df : Df} (hk : keysCovered df = true) (j : Nat)
    (err : String) : keysCovered (recordFailure df j err) = true := by
  simp only [recordFailure]
  split
  · exact keysCovered_dfSetCell hk _ _ _
  · exact keysCovered_dfSetCell (keysCovered_dfSetCol hk _ _) _ _ _

theorem recordFailure_cols_mono {df : Df} (j : Nat) (err : String) :
    ∀ c ∈ df.cols, c ∈ (recordFailure df j err).cols := by
  intro c hc
  simp only [recordFailure]
  split
  · exact (mem_cols_dfSetCell _ _ _ _).mpr (Or.inl hc)
  · exact (mem_cols_dfSetCell _ _ _ _).mpr (Or.inl ((mem_cols_dfSetCol _ _ _).mpr (Or.inl hc)))

/-! ### Step invariance lemmas for the candidate loop -/

theorem resolve_st_inv (O : Oracles) (row : RowT) (dir : String) (st : St) :
    (resolve_image_path O row dir st).2.df = st.df ∧
    (resolve_image_path O row dir st).2.log = st.log ∧
    (resolve_image_path O row dir st).2.attempts = st.attempts ∧
    (resolve_image_path O row dir st).2.saves = st.saves ∧
    (resolve_image_path O row dir st).2.uploadCtr = st.uploadCtr ∧
    (resolve_image_path O row dir st).2.imgVar = st.imgVar ∧
    (resolve_image_path O row dir st).2.prepVar = st.prepVar ∧
    (∀ e ∈ (resolve_image_path O row dir st).2.events,
      e ∈ st.events ∨ (isUploadEv e = false ∧ isLoginEv e = false)) := by
  simp only [resolve_image_path, freshTemp, pushEvent]
  repeat' split
  all_goals
    refine ⟨rfl, rfl, rfl, rfl, rfl, rfl, rfl, ?_⟩
    intro e he
    try simp only [List.mem_append, List.mem_singleton] at he
    first
    | exact Or.inl he
    | (rcases he with he | rfl
       · exact Or.inl he
       · exact Or.inr ⟨rfl, rfl⟩)
    | (rcases he with (he | rfl) | rfl
       · exact Or.inl he
       · exact Or.inr ⟨rfl, rfl⟩
       · exact Or.inr ⟨rfl, rfl⟩)

theorem prepare_st_inv (O : Oracles) (p : String) (st : St) :
    (prepare_image_for_instagram O p st).2.df = st.df ∧
    (prepare_image_for_instagram O p st).2.log = st.log ∧
    (prepare_image_for_instagram O p st).2.attempts = st.attempts ∧
    (prepare_image_for_instagram O p st).2.saves = st.saves ∧
    (prepare_image_for_instagram O p st).2.uploadCtr = st.uploadCtr ∧
    (prepare_image_for_instagram O p st).2.imgVar = st.imgVar ∧
    (prepare_image_for_instagram O p st).2.prepVar = st.prepVar ∧
    (∀ e ∈ (prepare_image_for_instagram O p st).2.events,
      e ∈ st.events ∨ (isUploadEv e = false ∧ isLoginEv e = false)) := by
  simp only [prepare_image_for_instagram, freshTemp]
  repeat' split
  all_goals
    refine ⟨rfl, rfl, rfl, rfl, rfl, rfl, rfl, ?_⟩
    intro e he
    try simp only [List.mem_append, List.mem_singleton] at he
    first
    | exact Or.inl he
    | (rcases he with he | rfl
       · exact Or.inl he
       · exact Or.inr ⟨rfl, rfl⟩)

theorem finallyCleanup_inv (O : Oracles) (st : St) :
    (finallyCleanup O st).df = st.df ∧
    (finallyCleanup O st).log = st.log ∧
    (finallyCleanup O st).attempts = st.attempts ∧
    (finallyCleanup O st).saves = st.saves ∧
    (∀ e ∈ (finallyCleanup O st).events,
      e ∈ st.events ∨ (isUploadEv e = false ∧ isLoginEv e = false)) := by
  simp only [finallyCleanup, removePath, pathExists]
  repeat' split
  all_goals
    refine ⟨rfl, rfl, rfl, rfl, ?_⟩
    intro e he
    try simp only [List.mem_append, List.mem_singleton] at he
    first
    | exact Or.inl he
    | (rcases he with he | rfl
       · exact Or.inl he
       · exact Or.inr ⟨rfl, rfl⟩)
    | (rcases he with (he | rfl) | rfl
       · exact Or.inl he
       · exact Or.inr ⟨rfl, rfl⟩
       · exact Or.inr ⟨rfl, rfl⟩)

theorem attempt_st_inv (O : Oracles) (A : Args) (row : RowT) (st : St) :
    (attemptCandidate O A row st).2.df = st.df ∧
    (attemptCandidate O A row st).2.log = st.log ∧
    (attemptCandidate O A row st).2.attempts = st.attempts ∧
    (attemptCandidate O A row st).2.saves = st.saves ∧
    (A.dryRun = true → ∀ e ∈ (attemptCandidate O A row st).2.events,
      e ∈ st.events ∨ (isUploadEv e = false ∧ isLoginEv e = false)) := by
  rcases hres : resolve_image_path O row A.imagesDir st with ⟨res, st1⟩
  have hr := resolve_st_inv O row A.imagesDir st
  rw [hres] at hr
  cases res with
  | error e =>
    simp only [attemptCandidate, hres]
    exact ⟨hr.1, hr.2.1, hr.2.2.1, hr.2.2.2.1, fun _ => hr.2.2.2.2.2.2.2⟩
  | ok pb =>
    rcases pb with ⟨imgPath, isTemp⟩
    rcases hprep : prepare_image_for_instagram O imgPath
        { st1 with imgVar := some (imgPath, isTemp) } with ⟨pres, st2⟩
    have hp := prepare_st_inv O imgPath { st1 with imgVar := some (imgPath, isTemp) }
    rw [hprep] at hp
    have hev12 : ∀ e ∈ st2.events,
        e ∈ st.events ∨ (isUploadEv e = false ∧ isLoginEv e = false) := by
      intro e he
      rcases hp.2.2.2.2.2.2.2 e he with h2 | h2
      · exact hr.2.2.2.2.2.2.2 e h2
      · exact Or.inr h2
    cases pres with
    | error e2 =>
      simp only [attemptCandidate, hres, hprep]
      exact ⟨hp.1.trans hr.1, hp.2.1.trans hr.2.1, hp.2.2.1.trans hr.2.2.1,
        hp.2.2.2.1.trans hr.2.2.2.1, fun _ => hev12⟩
    | ok prepPath =>
      cases hd : A.dryRun with
      | true =>
        simp only [attemptCandidate, hres, hprep, hd, if_true]
        exact ⟨hp.1.trans hr.1, hp.2.1.trans hr.2.1, hp.2.2.1.trans hr.2.2.1,
          hp.2.2.2.1.trans hr.2.2.2.1, fun _ => hev12⟩
      | false =>
        simp only [attemptCandidate, hres, hprep, hd, Bool.false_eq_true, if_false, pushEvent]
        refine ⟨hp.1.trans hr.1, hp.2.1.trans hr.2.1, hp.2.2.1.trans hr.2.2.1,
          hp.2.2.2.1.trans hr.2.2.2.1, fun hdc => ?_⟩
        exact absurd hdc (by simp)

theorem attempt_ok_pk (O : Oracles) (A : Args) (row : RowT) (st : St) (pk : String)
    (h : (attemptCandidate O A row st).1 = .ok pk) :
    (A.dryRun = true → pk = "DRY_RUN") ∧ (pk = "DRY_RUN" ∨ ∃ k, O.upload k = .ok pk) := by
  rcases hres : resolve_image_path O row A.imagesDir st with ⟨res, st1⟩
  cases res with
  | error e =>
    simp only [attemptCandidate, hres] at h
    exact Except.noConfusion h
  | ok pb =>
    rcases pb with ⟨imgPath, isTemp⟩
    rcases hprep : prepare_image_for_instagram O imgPath
        { st1 with imgVar := some (imgPath, isTemp) } with ⟨pres, st2⟩
    cases pres with
    | error e2 =>
      simp only [attemptCandidate, hres, hprep] at h
      exact Except.noConfusion h
    | ok prepPath =>
      cases hd : A.dryRun with
      | true =>
        simp only [attemptCandidate, hres, hprep, hd, if_true] at h
        have hpk : pk = "DRY_RUN" := by
          cases h
          rfl
        exact ⟨fun _ => hpk, Or.inl hpk⟩
      | false =>
        simp only [attemptCandidate, hres, hprep, hd, Bool.false_eq_true, if_false,
          pushEvent] at h
        refine ⟨fun hdc => absurd hdc (by simp [hd]), Or.inr ?_⟩
        exact ⟨_, h⟩

theorem finallyCleanup_df (O : Oracles) (s : St) : (finallyCleanup O s).df = s.df :=
  (finallyCleanup_inv O s).1

theorem finallyCleanup_log (O : Oracles) (s : St) : (finallyCleanup O s).log = s.log :=
  (finallyCleanup_inv O s).2.1

theorem finallyCleanup_attempts (O : Oracles) (s : St) :
    (finallyCleanup O s).attempts = s.attempts :=
  (finallyCleanup_inv O s).2.2.1

theorem processCandidate_step (O : Oracles) (A : Args) (st : St) (j : Nat)
    (hj : j < st.df.rows.length) (hk : keysCovered st.df = true) :
    (processCandidate O A st j).df.rows.length = st.df.rows.length ∧
    keysCovered (processCandidate O A st j).df = true ∧
    (∃ out, (processCandidate O A st j).log = st.log ++ [(j, out)]) ∧
    (∀ i, i ≠ j → ∀ c, getStrCell (processCandidate O A st j).df i c = getStrCell st.df i c) ∧
    (∀ msg, (processCandidate O A st j).log = st.log ++ [(j, Except.error msg)] →
        getStrCell (processCandidate O A st j).df j "error" = msg ∧
        "error" ∈ (processCandidate O A st j).df.cols ∧
        (∀ c, c ≠ "error" →
          getStrCell (processCandidate O A st j).df j c = getStrCell st.df j c)) ∧
    (∀ pk, (processCandidate O A st j).log = st.log ++ [(j, Except.ok pk)] →
        getStrCell (processCandidate O A st j).df j "posted" = "TRUE" ∧
        getStrCell (processCandidate O A st j).df j "posted_at" = A.now ∧
        getStrCell (processCandidate O A st j).df j "instagram_media_id" = pk ∧
        getStrCell (processCandidate O A st j).df j "error" = "" ∧
        (pk = "DRY_RUN" ∨ ∃ k, O.upload k = Except.ok pk) ∧
        (A.dryRun = true → pk = "DRY_RUN")) ∧
    (processCandidate O A st j).attempts = st.attempts + 1 ∧
    (∀ c ∈ st.df.cols, c ∈ (processCandidate O A st j).df.cols) ∧
    (A.dryRun = true → ∀ e ∈ (processCandidate O A st j).events,
      e ∈ st.events ∨ (isUploadEv e = false ∧ isLoginEv e = false)) := by
  rcases hat : attemptCandidate O A (dfRow st.df j) st with ⟨outcome, st1⟩
  have ha := attempt_st_inv O A (dfRow st.df j) st
  rw [hat] at ha
  have ha1 : st1.df = st.df := ha.1
  have ha2 : st1.log = st.log := ha.2.1
  have ha3 : st1.attempts = st.attempts := ha.2.2.1
  cases outcome with
  | ok pk =>
    have hpkfacts := attempt_ok_pk O A (dfRow st.df j) st pk (by rw [hat])
    simp only [processCandidate, hat, finallyCleanup_df, finallyCleanup_log,
      finallyCleanup_attempts]
    simp only [ha1, ha2, ha3]
    refine ⟨recordSuccess_length j A.now pk, keysCovered_recordSuccess hk j A.now pk,
      ⟨Except.ok pk, rfl⟩, ?_, ?_, ?_, trivial, recordSuccess_cols_mono j A.now pk, ?_⟩
    · intro i hij c
      exact recordSuccess_frame A.now pk i hij c
    · intro msg hlog
      have := List.append_cancel_left hlog
      simp at this
    · intro pk' hlog
      have hpe := List.append_cancel_left hlog
      simp only [List.cons.injEq, Prod.mk.injEq, Except.ok.injEq, and_true] at hpe
      rcases hpe with ⟨_, hpk⟩
      subst hpk
      exact ⟨recordSuccess_posted A.now pk hj, recordSuccess_posted_at A.now pk hj,
        recordSuccess_media A.now pk hj, recordSuccess_error A.now pk hj hk,
        hpkfacts.2, hpkfacts.1⟩
    · intro hd e he
      simp only [List.mem_append, List.mem_singleton] at he
      rcases he with he | rfl
      · rcases (finallyCleanup_inv O _).2.2.2.2 e he with h2 | h2
        · exact ha.2.2.2.2 hd e h2
        · exact Or.inr h2
      · exact Or.inr ⟨rfl, rfl⟩
  | error msg =>
    simp only [processCandidate, hat, finallyCleanup_df, finallyCleanup_log,
      finallyCleanup_attempts]
    simp only [ha1, ha2, ha3]
    refine ⟨recordFailure_length j msg, keysCovered_recordFailure hk j msg,
      ⟨Except.error msg, rfl⟩, ?_, ?_, ?_, trivial, recordFailure_cols_mono j msg, ?_⟩
    · intro i hij c
      exact recordFailure_frame msg hk i hij c
    · intro msg' hlog
      have hpe := List.append_cancel_left hlog
      simp only [List.cons.injEq, Prod.mk.injEq, Except.error.injEq, and_true] at hpe
      rcases hpe with ⟨_, hmsg⟩
      subst hmsg
      exact ⟨recordFailure_error msg hj, recordFailure_has_error_col j msg,
        fun c hc => recordFailure_other_col msg c hc⟩
    · intro pk hlog
      have := List.append_cancel_left hlog
      simp at this
    · intro hd e he
      simp only [List.mem_append, List.mem_singleton] at he
      rcases he with he | rfl
      · rcases (finallyCleanup_inv O _).2.2.2.2 e he with h2 | h2
        · exact ha.2.2.2.2 hd e h2
        · exact Or.inr h2
      · exact Or.inr ⟨rfl, rfl⟩

/-! ### The candidate loop, by induction -/

theorem loop_master (O : Oracles) (A : Args) :
    ∀ (cs : List Nat) (st : St), cs.Nodup →
      (∀ j ∈ cs, j < st.df.rows.length) →
      keysCovered st.df = true →
      (∀ p ∈ st.log, p.1 ∉ cs) →
      (cs.foldl (processCandidate O A) st).df.rows.length = st.df.rows.length ∧
      keysCovered (cs.foldl (processCandidate O A) st).df = true ∧
      (∀ p ∈ st.log, p ∈ (cs.foldl (processCandidate O A) st).log) ∧
      (∀ p ∈ (cs.foldl (processCandidate O A) st).log, p ∈ st.log ∨ p.1 ∈ cs) ∧
      (∀ j ∈ cs, ∃ out, (j, out) ∈ (cs.foldl (processCandidate O A) st).log) ∧
      (∀ i, i ∉ cs → ∀ c,
        getStrCell (cs.foldl (processCandidate O A) st).df i c = getStrCell st.df i c) ∧
      (∀ j msg, (j, Except.error msg) ∈ (cs.foldl (processCandidate O A) st).log →
        (j, Except.error msg) ∈ st.log ∨
        (j ∈ cs ∧
         getStrCell (cs.foldl (processCandidate O A) st).df j "error" = msg ∧
         getStrCell (cs.foldl (processCandidate O A) st).df j "posted"
           = getStrCell st.df j "posted" ∧
         getStrCell (cs.foldl (processCandidate O A) st).df j "posted_at"
           = getStrCell st.df j "posted_at" ∧
         getStrCell (cs.foldl (processCandidate O A) st).df j "instagram_media_id"
           = getStrCell st.df j "instagram_media_id")) ∧
      (∀ j pk, (j, Except.ok pk) ∈ (cs.foldl (processCandidate O A) st).log →
        (j, Except.ok pk) ∈ st.log ∨
        (j ∈ cs ∧
         getStrCell (cs.foldl (processCandidate O A) st).df j "posted" = "TRUE" ∧
         getStrCell (cs.foldl (processCandidate O A) st).df j "posted_at" = A.now ∧
         getStrCell (cs.foldl (processCandidate O A) st).df j "instagram_media_id" = pk ∧
         getStrCell (cs.foldl (processCandidate O A) st).df j "error" = "" ∧
         (pk = "DRY_RUN" ∨ ∃ k, O.upload k = Except.ok pk) ∧
         (A.dryRun = true → pk = "DRY_RUN"))) ∧
      (cs.foldl (processCandidate O A) st).attempts = st.attempts + cs.length ∧
      (A.dryRun = true → ∀ e ∈ (cs.foldl (processCandidate O A) st).events,
        e ∈ st.events ∨ (isUploadEv e = false ∧ isLoginEv e = false)) := by
  intro cs
  induction cs with
  | nil =>
    intro st _ _ hk _
    refine ⟨rfl, hk, fun p hp => hp, fun p hp => Or.inl hp, ?_, ?_, ?_, ?_, rfl, ?_⟩
    · intro j hj
      simp at hj
    · intro i _ c
      rfl
    · intro j msg hm
      exact Or.inl hm
    · intro j pk hm
      exact Or.inl hm
    · intro _ e he
      exact Or.inl he
  | cons c rest ih =>
    intro st hnd hjs hk hdisj
    obtain ⟨slen, skeys, ⟨out, slog⟩, sframe, serr, sok, satt, scols, sev⟩ :=
      processCandidate_step O A st c (hjs c (List.mem_cons_self c rest)) hk
    rw [List.foldl_cons]
    have hndr : rest.Nodup := (List.nodup_cons.mp hnd).2
    have hcnr : c ∉ rest := (List.nodup_cons.mp hnd).1
    have hjs' : ∀ j ∈ rest, j < (processCandidate O A st c).df.rows.length := by
      intro j hj
      rw [slen]
      exact hjs j (List.mem_cons_of_mem c hj)
    have hdisj' : ∀ p ∈ (processCandidate O A st c).log, p.1 ∉ rest := by
      intro p hp
      rw [slog] at hp
      rcases List.mem_append.mp hp with hp | hp
      · exact fun hr => hdisj p hp (List.mem_cons_of_mem c hr)
      · rw [List.mem_singleton.mp hp]
        exact hcnr
    obtain ⟨ilen, ikeys, imono, iorig, iall, iframe, ierr, iok, iatt, iev⟩ :=
      ih (processCandidate O A st c) hndr hjs' skeys hdisj'
    have hentry_c : ∀ o, (c, o) ∈ (processCandidate O A st c).log →
        (processCandidate O A st c).log = st.log ++ [(c, o)] := by
      intro o ho
      rw [slog] at ho
      rcases List.mem_append.mp ho with ho | ho
      · exact absurd (List.mem_cons_self c rest) (hdisj _ ho)
      · rw [List.mem_singleton.mp ho]
        exact slog
    refine ⟨ilen.trans slen, ikeys, ?_, ?_, ?_, ?_, ?_, ?_, ?_, ?_⟩
    · intro p hp
      exact imono p (by rw [slog]; exact List.mem_append.mpr (Or.inl hp))
    · intro p hp
      rcases iorig p hp with hp' | hp'
      · rw [slog] at hp'
        rcases List.mem_append.mp hp' with hp'' | hp''
        · exact Or.inl hp''
        · rw [List.mem_singleton.mp hp'']
          exact Or.inr (List.mem_cons_self c rest)
      · exact Or.inr (List.mem_cons_of_mem c hp')
    · intro j hj
      rcases List.mem_cons.mp hj with rfl | hj
      · exact ⟨out, imono _ (by rw [slog]; exact List.mem_append.mpr (Or.inr
          (List.mem_singleton.mpr rfl)))⟩
      · exact iall j hj
    · intro i hi ci
      have hic : i ≠ c := fun h => hi (h ▸ List.mem_cons_self c rest)
      have hir : i ∉ rest := fun h => hi (List.mem_cons_of_mem c h)
      rw [iframe i hir ci, sframe i hic ci]
    · intro j msg hm
      rcases ierr j msg hm with hm' | ⟨hjr, h1, h2, h3, h4⟩
      · rw [slog] at hm'
        rcases List.mem_append.mp hm' with hm'' | hm''
        · exact Or.inl hm''
        · have hjc : j = c ∧ out = Except.error msg := by
            have := List.mem_singleton.mp hm''
            exact ⟨congrArg Prod.fst this, (congrArg Prod.snd this).symm⟩
          rcases hjc with ⟨rfl, rfl⟩
          have hstep := serr msg slog
          have hjr : j ∉ rest := hcnr
          refine Or.inr ⟨List.mem_cons_self j rest, ?_, ?_, ?_, ?_⟩
          · rw [iframe j hjr "error"]
            exact hstep.1
          · rw [iframe j hjr "posted"]
            exact hstep.2.2 "posted" (by decide)
          · rw [iframe j hjr "posted_at"]
            exact hstep.2.2 "posted_at" (by decide)
          · rw [iframe j hjr "instagram_media_id"]
            exact hstep.2.2 "instagram_media_id" (by decide)
      · have hjc : j ≠ c := fun h => hcnr (h ▸ hjr)
        exact Or.inr ⟨List.mem_cons_of_mem c hjr, h1,
          h2.trans (sframe j hjc "posted"),
          h3.trans (sframe j hjc "posted_at"),
          h4.trans (sframe j hjc "instagram_media_id")⟩
    · intro j pk hm
      rcases iok j pk hm with hm' | ⟨hjr, h1, h2, h3, h4, h5, h6⟩
      · rw [slog] at hm'
        rcases List.mem_append.mp hm' with hm'' | hm''
        · exact Or.inl hm''
        · have hjc : j = c ∧ out = Except.ok pk := by
            have := List.mem_singleton.mp hm''
            exact ⟨congrArg Prod.fst this, (congrArg Prod.snd this).symm⟩
          rcases hjc with ⟨rfl, rfl⟩
          have hstep := sok pk slog
          have hjr : j ∉ rest := hcnr
          refine Or.inr ⟨List.mem_cons_self j rest, ?_, ?_, ?_, ?_, hstep.2.2.2.2.1,
            hstep.2.2.2.2.2⟩
          · rw [iframe j hjr "posted"]
            exact hstep.1
          · rw [iframe j hjr "posted_at"]
            exact hstep.2.1
          · rw [iframe j hjr "instagram_media_id"]
            exact hstep.2.2.1
          · rw [iframe j hjr "error"]
            exact hstep.2.2.2.1
      · exact Or.inr ⟨List.mem_cons_of_mem c hjr, h1, h2, h3, h4, h5, h6⟩
    · rw [iatt, satt]
      simp [Nat.add_assoc, Nat.add_comm 1 rest.length]
    · intro hd e he
      rcases iev hd e he with he' | he'
      · exact sev hd e he'
      · exact Or.inr he'

/-! ### `mainModel` structure lemmas -/

theorem mainModel_spec (O : Oracles) (A : Args) (raw : Df) :
    ((mainModel O A raw).selected = [] ∧ (mainModel O A raw).exitCode = 0 ∧
      (mainModel O A raw).st = initSt (load_csv O.pdParse raw)) ∨
    (A.dryRun = false ∧ (A.envUser == "" || A.envPass == "") = true ∧
      (mainModel O A raw).exitCode = 1 ∧
      (mainModel O A raw).st = initSt (load_csv O.pdParse raw) ∧
      (mainModel O A raw).selected ≠ []) ∨
    ((mainModel O A raw).exitCode = 0 ∧ (mainModel O A raw).selected ≠ [] ∧
      (A.dryRun = false → (A.envUser == "" || A.envPass == "") = false) ∧
      (mainModel O A raw).st = (mainModel O A raw).selected.foldl (processCandidate O A)
        (if A.dryRun then initSt (load_csv O.pdParse raw)
         else pushEvent (initSt (load_csv O.pdParse raw)) Event.login)) := by
  simp only [mainModel]
  cases hie : ((List.range (load_csv O.pdParse raw).rows.length).filter
      (fun i => maskAt A (load_csv O.pdParse raw) i)).isEmpty with
  | true =>
    simp only [hie, if_true]
    exact Or.inl ⟨by trivial, by trivial, by trivial⟩
  | false =>
    simp only [hie, Bool.false_eq_true, if_false]
    cases hce : (if A.all then ((List.range (load_csv O.pdParse raw).rows.length).filter
        (fun i => maskAt A (load_csv O.pdParse raw) i))
      else pick_next_scheduled_rows (load_csv O.pdParse raw)
        ((List.range (load_csv O.pdParse raw).rows.length).filter
          (fun i => maskAt A (load_csv O.pdParse raw) i)) A.limit A.today).isEmpty with
    | true =>
      simp only [hce, if_true]
      exact Or.inl ⟨by trivial, by trivial, by trivial⟩
    | false =>
      simp only [hce, Bool.false_eq_true, if_false]
      cases hcond : (!A.dryRun && (A.envUser == "" || A.envPass == "")) with
      | true =>
        simp only [hcond, if_true]
        have hdec := (Bool.and_eq_true _ _).mp hcond
        refine Or.inr (Or.inl ⟨(Bool.not_eq_true' _).mp hdec.1, hdec.2, by trivial, by trivial, ?_⟩)
        intro h
        rw [h] at hce
        exact Bool.noConfusion hce
      | false =>
        simp only [hcond, Bool.false_eq_true, if_false]
        refine Or.inr (Or.inr ⟨by trivial, ?_, ?_, by trivial⟩)
        · intro h
          rw [h] at hce
          exact Bool.noConfusion hce
        · intro hdry
          cases henv : (A.envUser == "" || A.envPass == "") with
          | false => rfl
          | true =>
            rw [hdry] at hcond
            rw [henv] at hcond
            exact Bool.noConfusion hcond

theorem mainModel_selected_mask (O : Oracles) (A : Args) (raw : Df) :
    ∀ i ∈ (mainModel O A raw).selected,
      i < (load_csv O.pdParse raw).rows.length ∧
      maskAt A (load_csv O.pdParse raw) i = true := by
  intro i hi
  have hsub : i ∈ (List.range (load_csv O.pdParse raw).rows.length).filter
      (fun i => maskAt A (load_csv O.pdParse raw) i) := by
    simp only [mainModel] at hi
    cases hie : ((List.range (load_csv O.pdParse raw).rows.length).filter
        (fun i => maskAt A (load_csv O.pdParse raw) i)).isEmpty with
    | true =>
      simp only [hie, if_true] at hi
      simp at hi
    | false =>
      simp only [hie, Bool.false_eq_true, if_false] at hi
      cases hce : (if A.all then ((List.range (load_csv O.pdParse raw).rows.length).filter
          (fun i => maskAt A (load_csv O.pdParse raw) i))
        else pick_next_scheduled_rows (load_csv O.pdParse raw)
          ((List.range (load_csv O.pdParse raw).rows.length).filter
            (fun i => maskAt A (load_csv O.pdParse raw) i)) A.limit A.today).isEmpty with
      | true =>
        simp only [hce, if_true] at hi
        simp at hi
      | false =>
        simp only [hce, Bool.false_eq_true, if_false] at hi
        cases hcond : (!A.dryRun && (A.envUser == "" || A.envPass == "")) with
        | true =>
          simp only [hcond, if_true] at hi
          cases hall : A.all with
          | true =>
            simp only [hall, if_true] at hi
            exact hi
          | false =>
            simp only [hall, Bool.false_eq_true, if_false] at hi
            exact (List.mem_filter.mp (pick_subset _ _ _ _ i hi)).1
        | false =>
          simp only [hcond, Bool.false_eq_true, if_false] at hi
          cases hall : A.all with
          | true =>
            simp only [hall, if_true] at hi
            exact hi
          | false =>
            simp only [hall, Bool.false_eq_true, if_false] at hi
            exact (List.mem_filter.mp (pick_subset _ _ _ _ i hi)).1
  rcases List.mem_filter.mp hsub with ⟨hr, hm⟩
  exact ⟨List.mem_range.mp hr, hm⟩

theorem mainModel_selected_nodup (O : Oracles) (A : Args) (raw : Df) :
    (mainModel O A raw).selected.Nodup := by
  have hidx : ((List.range (load_csv O.pdParse raw).rows.length).filter
      (fun i => maskAt A (load_csv O.pdParse raw) i)).Nodup :=
    (List.nodup_range _).filter _
  simp only [mainModel]
  cases hie : ((List.range (load_csv O.pdParse raw).rows.length).filter
      (fun i => maskAt A (load_csv O.pdParse raw) i)).isEmpty with
  | true =>
    simp only [hie, if_true]
    exact List.nodup_nil
  | false =>
    simp only [hie, Bool.false_eq_true, if_false]
    cases hce : (if A.all then ((List.range (load_csv O.pdParse raw).rows.length).filter
        (fun i => maskAt A (load_csv O.pdParse raw) i))
      else pick_next_scheduled_rows (load_csv O.pdParse raw)
        ((List.range (load_csv O.pdParse raw).rows.length).filter
          (fun i => maskAt A (load_csv O.pdParse raw) i)) A.limit A.today).isEmpty with
    | true =>
      simp only [hce, if_true]
      exact List.nodup_nil
    | false =>
      simp only [hce, Bool.false_eq_true, if_false]
      cases hcond : (!A.dryRun && (A.envUser == "" || A.envPass == "")) with
      | true =>
        simp only [hcond, if_true]
        cases hall : A.all with
        | true =>
          simp only [hall, if_true]
          exact hidx
        | false =>
          simp only [hall, Bool.false_eq_true, if_false]
          exact pick_nodup _ _ _ _ hidx
      | false =>
        simp only [hcond, Bool.false_eq_true, if_false]
        cases hall : A.all with
        | true =>
          simp only [hall, if_true]
          exact hidx
        | false =>
          simp only [hall, Bool.false_eq_true, if_false]
          exact pick_nodup _ _ _ _ hidx

theorem startSt_df (A : Args) (df0 : Df) :
    (if A.dryRun then initSt df0 else pushEvent (initSt df0) Event.login).df = df0 := by
  split <;> rfl

theorem startSt_log (A : Args) (df0 : Df) :
    (if A.dryRun then initSt df0 else pushEvent (initSt df0) Event.login).log = [] := by
  split <;> rfl

theorem startSt_attempts (A : Args) (df0 : Df) :
    (if A.dryRun then initSt df0 else pushEvent (initSt df0) Event.login).attempts = 0 := by
  split <;> rfl

theorem startSt_events_dry {A : Args} (hd : A.dryRun = true) (df0 : Df) :
    (if A.dryRun then initSt df0 else pushEvent (initSt df0) Event.login).events = [] := by
  rw [if_pos hd]
  rfl

theorem selected_posted_falsy (O : Oracles) (A : Args) (raw : Df) :
    ∀ i ∈ (mainModel O A raw).selected,
      is_falsey (getStrCell (load_csv O.pdParse raw) i "posted") = true := by
  intro i hi
  obtain ⟨hlt, hm⟩ := mainModel_selected_mask O A raw i hi
  unfold maskAt at hm
  have hrow : rowToPost (load_csv O.pdParse raw) i = true :=
    ((Bool.and_eq_true _ _).mp
      ((Bool.and_eq_true _ _).mp ((Bool.and_eq_true _ _).mp hm).1).1).1
  rw [← rowToPost_load_csv O.pdParse raw i
    (by rw [← load_csv_length O.pdParse raw]; exact hlt)]
  exact hrow

/-! ### C9: idempotence on a fully-posted queue -/

/-- C9: running the controller on a queue in which every target row
(i.e. every row passing the category and date filters) already has a
truthy `posted` value performs zero publish attempts, issues no network
call, never writes the queue file (so it is byte-for-byte unchanged), and
leaves the in-memory frame exactly as loaded — hence a second run finds
the identical file and does the same, and running twice equals running
once. -/
theorem c9_idempotent (O : Oracles) (A : Args) (raw : Df)
    (h : ∀ i, i < (load_csv O.pdParse raw).rows.length →
      catPass A (load_csv O.pdParse raw) i = true →
      startPass A (load_csv O.pdParse raw) i = true →
      endPass A (load_csv O.pdParse raw) i = true →
      is_falsey (getStrCell (load_csv O.pdParse raw) i "posted") = false) :
    (mainModel O A raw).exitCode = 0 ∧
    (mainModel O A raw).selected = [] ∧
    (mainModel O A raw).st.saves = [] ∧
    (mainModel O A raw).st.attempts = 0 ∧
    (mainModel O A raw).st.events = [] ∧
    (mainModel O A raw).st.df = load_csv O.pdParse raw := by
  have hmask : ∀ i ∈ List.range (load_csv O.pdParse raw).rows.length,
      ¬ maskAt A (load_csv O.pdParse raw) i = true := by
    intro i hir hm
    have hilt := List.mem_range.mp hir
    unfold maskAt at hm
    have h1 := (Bool.and_eq_true _ _).mp hm
    have h2 := (Bool.and_eq_true _ _).mp h1.1
    have h3 := (Bool.and_eq_true _ _).mp h2.1
    have hrow : rowToPost (load_csv O.pdParse raw) i = true := h3.1
    rw [rowToPost_load_csv O.pdParse raw i
      (by rw [← load_csv_length O.pdParse raw]; exact hilt)] at hrow
    rw [h i hilt h3.2 h2.2 h1.2] at hrow
    exact Bool.noConfusion hrow
  have hie : ((List.range (load_csv O.pdParse raw).rows.length).filter
      (fun i => maskAt A (load_csv O.pdParse raw) i)).isEmpty = true := by
    rw [List.isEmpty_iff]
    exact List.filter_eq_nil.mpr hmask
  simp only [mainModel, hie, if_true]
  exact ⟨by trivial, by trivial, by trivial, by trivial, by trivial, by trivial⟩

/-- Witness for C9: a one-row queue whose only row is already
`posted=TRUE` yields no save, no attempt and no event. -/
theorem c9_witness :
    (mainModel oraclesOk argsBase rawAllPosted).st.saves = [] ∧
    (mainModel oraclesOk argsBase rawAllPosted).st.attempts = 0 ∧
    (mainModel oraclesOk argsBase rawAllPosted).st.events = [] := by
  have h := c9_idempotent oraclesOk argsBase rawAllPosted (by
    intro i hi _ _ _
    have hx : (load_csv oraclesOk.pdParse rawAllPosted).rows.length = 1 := by decide
    rw [hx] at hi
    have : i = 0 := Nat.lt_one_iff.mp hi
    subst this
    decide)
  exact ⟨h.2.2.1, h.2.2.2.1, h.2.2.2.2.1⟩

/-! ### C7: missing environment variable / missing CSV column -/

/-- C7 counterexample: a CSV with no `posted` (and no `caption`) column —
required columns per the spec — does not make the process exit nonzero
before touching rows: the run completes with exit status 0, selects the
row, marks it posted and saves the file. -/
theorem c7_counterexample :
    rawNoPosted.cols.contains "posted" = false ∧
    rawNoPosted.cols.contains "caption" = false ∧
    (mainModel oraclesOk argsBase rawNoPosted).exitCode = 0 ∧
    (mainModel oraclesOk argsBase rawNoPosted).selected = [0] ∧
    getStrCell (mainModel oraclesOk argsBase rawNoPosted).st.df 0 "posted" = "TRUE" ∧
    (mainModel oraclesOk argsBase rawNoPosted).st.saves ≠ [] := by
  exact ⟨by decide, by decide, by decide, by decide, by decide, by decide⟩

/-- C7 (amended): when `IG_USERNAME` or `IG_PASSWORD` is missing, the run
is not a dry run, and at least one candidate row was selected, the process
exits with status 1 before any row is touched: the frame is exactly the
loaded one, nothing is saved, no attempt is made and no network event is
emitted. (No CSV column is required: missing `posted`/`caption` columns
are silently defaulted to empty and selection proceeds.) -/
theorem c7_env_exit (O : Oracles) (A : Args) (raw : Df) (hd : A.dryRun = false)
    (henv : A.envUser = "" ∨ A.envPass = "")
    (hsel : (mainModel O A raw).selected ≠ []) :
    (mainModel O A raw).exitCode = 1 ∧
    (mainModel O A raw).st.df = load_csv O.pdParse raw ∧
    (mainModel O A raw).st.saves = [] ∧
    (mainModel O A raw).st.attempts = 0 ∧
    (mainModel O A raw).st.events = [] := by
  have henvb : (A.envUser == "" || A.envPass == "") = true := by
    rcases henv with henv | henv
    · rw [Bool.or_eq_true]
      exact Or.inl (by rw [henv]; rfl)
    · rw [Bool.or_eq_true]
      exact Or.inr (by rw [henv]; rfl)
  rcases mainModel_spec O A raw with ⟨hs, _, _⟩ | ⟨_, _, hc, hst, _⟩ | ⟨_, _, himp, _⟩
  · exact absurd hs hsel
  · rw [hst]
    exact ⟨hc, rfl, rfl, rfl, rfl⟩
  · rw [himp hd] at henvb
    exact Bool.noConfusion henvb

/-- Witness for C7 (amended) at a concrete run with `IG_USERNAME` unset. -/
theorem c7_witness :
    (mainModel oraclesOk argsNoEnv rawA).exitCode = 1 ∧
    (mainModel oraclesOk argsNoEnv rawA).st.saves = [] := by
  have h := c7_env_exit oraclesOk argsNoEnv rawA (by decide) (Or.inl (by decide))
    (by decide)
  exact ⟨h.1, h.2.2.1⟩

/-! ### C10: date-range filters and dateless rows -/

/-- C10 counterexample: `--start-date banana` is a supplied date filter,
but it fails to parse, is ignored with a warning, and a row with no date
value is still selected — contradicting the claim that every supplied
date filter excludes rows with absent or unparseable dates. -/
theorem c10_counterexample :
    argsBanana.startDate = some "banana" ∧
    parse_date_or_none argsBanana.startDate = none ∧
    rowDate (load_csv oraclesOk.pdParse rawNoDate) 0 = none ∧
    (mainModel oraclesOk argsBanana rawNoDate).selected = [0] := by
  exact ⟨by decide, by decide, by decide, by decide⟩

/-- C10 (amended): whenever a supplied `--start-date` or `--end-date`
value actually parses as `YYYY-MM-DD`, every selected row (in both `--all`
and next-scheduled modes) has a parsed date — rows with absent or
unparseable dates are excluded, because the date-range mask requires
`pd.notna(d)`. An unparseable filter value is ignored. -/
theorem c10_valid_date_filter (O : Oracles) (A : Args) (raw : Df)
    (hp : (parse_date_or_none A.startDate).isSome = true ∨
          (parse_date_or_none A.endDate).isSome = true) :
    ∀ i ∈ (mainModel O A raw).selected,
      (rowDate (load_csv O.pdParse raw) i).isSome = true := by
  intro i hi
  obtain ⟨hlt, hm⟩ := mainModel_selected_mask O A raw i hi
  unfold maskAt at hm
  have h1 := (Bool.and_eq_true _ _).mp hm
  have h2 := (Bool.and_eq_true _ _).mp h1.1
  have hcontains : (load_csv O.pdParse raw).cols.contains "_date_parsed" = true :=
    contains_iff_memS.mpr (load_csv_has_date_parsed O.pdParse raw)
  rcases hp with hp | hp
  · have hsp : startPass A (load_csv O.pdParse raw) i = true := h2.2
    unfold startPass at hsp
    rcases hps : parse_date_or_none A.startDate with _ | s
    · rw [hps] at hp
      exact Bool.noConfusion hp
    · simp only [hps] at hsp
      rw [if_pos hcontains] at hsp
      rcases hr : rowDate (load_csv O.pdParse raw) i with _ | d
      · rw [hr] at hsp
        exact Bool.noConfusion hsp
      · rfl
  · have hep : endPass A (load_csv O.pdParse raw) i = true := h1.2
    unfold endPass at hep
    rcases hps : parse_date_or_none A.endDate with _ | s
    · rw [hps] at hp
      exact Bool.noConfusion hp
    · simp only [hps] at hep
      rw [if_pos hcontains] at hep
      rcases hr : rowDate (load_csv O.pdParse raw) i with _ | d
      · rw [hr] at hep
        exact Bool.noConfusion hep
      · rfl

/-- Witness for C10 (amended) with a valid `--start-date` and a dated row. -/
theorem c10_witness :
    (rowDate (load_csv oraclesOk.pdParse rawA) 0).isSome = true :=
  c10_valid_date_filter oraclesOk argsStart rawA (Or.inl (by decide)) 0 (by decide)

/-! ### C3: posted implies media id present and error empty -/

theorem invRowB_oob {df : Df} {i : Nat} (h : df.rows.length ≤ i) : invRowB df i = true := by
  unfold invRowB
  rw [getStrCell_oob h]
  rfl

/-- C3 counterexample: with a publisher whose successful upload returns a
media object without a `pk` (the code's `getattr(media, "pk", None) or ""`
then yields the empty string), a run on a queue satisfying the invariant
marks the row `posted=TRUE` with an empty `instagram_media_id` — the
invariant is violated after the run. -/
theorem c3_counterexample :
    (load_csv oraclesPkEmpty.pdParse rawA).rows.length = 1 ∧
    invRowB (load_csv oraclesPkEmpty.pdParse rawA) 0 = true ∧
    getStrCell (mainModel oraclesPkEmpty argsReal rawA).st.df 0 "posted" = "TRUE" ∧
    getStrCell (mainModel oraclesPkEmpty argsReal rawA).st.df 0 "instagram_media_id" = "" ∧
    invRowB (mainModel oraclesPkEmpty argsReal rawA).st.df 0 = false := by
  exact ⟨by decide, by decide, by decide, by decide, by decide⟩

/-- C3 (amended): provided the input CSV frame is well-formed, the loaded
queue satisfies the invariant, and every successful upload returns a
non-empty media pk, then after any run every row still satisfies it: a
truthy `posted` implies a non-empty `instagram_media_id` and an empty
`error`. -/
theorem c3_posted_invariant (O : Oracles) (A : Args) (raw : Df)
    (hwf : keysCovered raw = true)
    (hin : ∀ i, i < (load_csv O.pdParse raw).rows.length →
      invRowB (load_csv O.pdParse raw) i = true)
    (hpk : ∀ k pk, O.upload k = Except.ok pk → pk ≠ "") :
    ∀ i, invRowB (mainModel O A raw).st.df i = true := by
  intro i
  rcases mainModel_spec O A raw with ⟨_, _, hst⟩ | ⟨_, _, _, hst, _⟩ | ⟨_, _, _, hst⟩
  · rw [hst]
    by_cases hlen : i < (load_csv O.pdParse raw).rows.length
    · exact hin i hlen
    · exact invRowB_oob (le_of_not_lt hlen)
  · rw [hst]
    by_cases hlen : i < (load_csv O.pdParse raw).rows.length
    · exact hin i hlen
    · exact invRowB_oob (le_of_not_lt hlen)
  · set df0 := load_csv O.pdParse raw with hdf0
    set st0 := if A.dryRun then initSt df0 else pushEvent (initSt df0) Event.login with hst0
    have hkeys0 : keysCovered st0.df = true := by
      rw [hst0, startSt_df]
      exact keysCovered_load_csv hwf O.pdParse
    have hbnds : ∀ j ∈ (mainModel O A raw).selected, j < st0.df.rows.length := by
      rw [hst0, startSt_df]
      intro j hj
      exact (mainModel_selected_mask O A raw j hj).1
    have hdisj : ∀ p ∈ st0.log, p.1 ∉ (mainModel O A raw).selected := by
      rw [hst0, startSt_log]
      intro p hp
      exact absurd hp (List.not_mem_nil p)
    obtain ⟨llen, lkeys, lmono, lorig, lall, lframe, lerr, lok, latt, lev⟩ :=
      loop_master O A (mainModel O A raw).selected st0
        (mainModel_selected_nodup O A raw) hbnds hkeys0 hdisj
    rw [hst]
    by_cases hsel : i ∈ (mainModel O A raw).selected
    · obtain ⟨out, hout⟩ := lall i hsel
      cases out with
      | ok pk =>
        rcases lok i pk hout with habs | ⟨_, hp1, _, hp3, hp4, hp5, _⟩
        · rw [hst0, startSt_log] at habs
          exact absurd habs (List.not_mem_nil _)
        · have hpkne : pk ≠ "" := by
            rcases hp5 with rfl | ⟨k, hk⟩
            · decide
            · exact hpk k pk hk
          unfold invRowB
          rw [hp1, hp3, hp4]
          simp [bne_iff_ne, hpkne]
      | error msg =>
        rcases lerr i msg hout with habs | ⟨_, _, hposted, _, _⟩
        · rw [hst0, startSt_log] at habs
          exact absurd habs (List.not_mem_nil _)
        · unfold invRowB
          rw [hposted, hst0, startSt_df]
          rw [selected_posted_falsy O A raw i hsel]
          rfl
    · have hfr := lframe i hsel
      unfold invRowB
      rw [hfr "posted", hfr "instagram_media_id", hfr "error", hst0, startSt_df]
      by_cases hlen : i < df0.rows.length
      · have hh := hin i hlen
        unfold invRowB at hh
        exact hh
      · have hh : invRowB df0 i = true := invRowB_oob (le_of_not_lt hlen)
        unfold invRowB at hh
        exact hh

/-- Witness for C3 (amended) at a concrete run: the invariant holds of
every row after a real run whose upload returns a non-empty pk. -/
theorem c3_witness :
    invRowB (mainModel oraclesOk argsReal rawA).st.df 0 = true := by
  have hin : ∀ i, i < (load_csv oraclesOk.pdParse rawA).rows.length →
      invRowB (load_csv oraclesOk.pdParse rawA) i = true := by
    intro i hi
    have hx : (load_csv oraclesOk.pdParse rawA).rows.length = 1 := by decide
    rw [hx] at hi
    have h0 : i = 0 := Nat.lt_one_iff.mp hi
    subst h0
    decide
  have hpk : ∀ k pk, oraclesOk.upload k = Except.ok pk → pk ≠ "" := by
    intro k pk h
    have h' : ("mid123" : String) = pk := by injection h
    rw [← h']
    decide
  exact c3_posted_invariant oraclesOk argsReal rawA (by decide) hin hpk 0

/-! ### C4: failed publish attempts -/

/-- C4 counterexample: an upload failure whose message is 501 characters
long is stored in the row's `error` field in full — nothing truncates it
to 500 characters (or to any other bound). -/
theorem c4_counterexample :
    longMsg.data.length = 501 ∧
    getStrCell (mainModel oraclesUpFailLong argsReal rawA).st.df 0 "error" = longMsg := by
  exact ⟨by decide, by decide⟩

/-- C4 (amended): for every candidate row whose publish attempt fails, the
controller leaves that row's `posted` field falsy and stores the complete,
untruncated failure message in its `error` field; and it continues
processing: on a normal exit every selected candidate is attempted
(attempt count equals the number of selected rows). -/
theorem c4_failure_handling (O : Oracles) (A : Args) (raw : Df)
    (hwf : keysCovered raw = true) :
    ((mainModel O A raw).exitCode = 0 →
      (mainModel O A raw).st.attempts = (mainModel O A raw).selected.length) ∧
    (∀ idx msg, (idx, Except.error msg) ∈ (mainModel O A raw).st.log →
      getStrCell (mainModel O A raw).st.df idx "error" = msg ∧
      is_falsey (getStrCell (mainModel O A raw).st.df idx "posted") = true) := by
  rcases mainModel_spec O A raw with ⟨hsel, hex, hst⟩ | ⟨_, _, hex, hst, _⟩ | ⟨hex, _, _, hst⟩
  · constructor
    · intro _
      rw [hst, hsel]
      rfl
    · intro idx msg hm
      rw [hst] at hm
      exact absurd hm (List.not_mem_nil _)
  · constructor
    · intro h0
      rw [hex] at h0
      exact absurd h0 (by decide)
    · intro idx msg hm
      rw [hst] at hm
      exact absurd hm (List.not_mem_nil _)
  · set df0 := load_csv O.pdParse raw with hdf0
    set st0 := if A.dryRun then initSt df0 else pushEvent (initSt df0) Event.login with hst0
    have hkeys0 : keysCovered st0.df = true := by
      rw [hst0, startSt_df]
      exact keysCovered_load_csv hwf O.pdParse
    have hbnds : ∀ j ∈ (mainModel O A raw).selected, j < st0.df.rows.length := by
      rw [hst0, startSt_df]
      intro j hj
      exact (mainModel_selected_mask O A raw j hj).1
    have hdisj : ∀ p ∈ st0.log, p.1 ∉ (mainModel O A raw).selected := by
      rw [hst0, startSt_log]
      intro p hp
      exact absurd hp (List.not_mem_nil p)
    obtain ⟨llen, lkeys, lmono, lorig, lall, lframe, lerr, lok, latt, lev⟩ :=
      loop_master O A (mainModel O A raw).selected st0
        (mainModel_selected_nodup O A raw) hbnds hkeys0 hdisj
    constructor
    · intro _
      rw [hst, latt, hst0, startSt_attempts]
      exact Nat.zero_add _
    · intro idx msg hm
      rw [hst] at hm
      rcases lerr idx msg hm with habs | ⟨hsel', herr, hposted, _, _⟩
      · rw [hst0, startSt_log] at habs
        exact absurd habs (List.not_mem_nil _)
      · rw [hst]
        refine ⟨herr, ?_⟩
        rw [hposted, hst0, startSt_df]
        exact selected_posted_falsy O A raw idx hsel'

/-- Witness for C4 (amended) at a concrete failing run: the single
candidate is attempted, its error field carries the full 501-character
message and its `posted` field is still falsy. -/
theorem c4_witness :
    (mainModel oraclesUpFailLong argsReal rawA).st.attempts
      = (mainModel oraclesUpFailLong argsReal rawA).selected.length ∧
    getStrCell (mainModel oraclesUpFailLong argsReal rawA).st.df 0 "error" = longMsg ∧
    is_falsey (getStrCell (mainModel oraclesUpFailLong argsReal rawA).st.df 0 "posted")
      = true := by
  have h := c4_failure_handling oraclesUpFailLong argsReal rawA (by decide)
  have h2 := h.2 0 longMsg (by decide)
  exact ⟨h.1 (by decide), h2.1, h2.2⟩

/-! ### C6: dry-run behaviour -/

/-- C6 counterexample: in dry-run mode, a selected row whose `image_url`
is remote is still downloaded over the network by `resolve_image_path`
(`urllib.request.urlretrieve`), so "no network call of any kind" is
false; the row is nonetheless marked with the sentinel. -/
theorem c6_counterexample :
    argsBase.dryRun = true ∧
    Event.download "https://x/y.jpg" ∈ (mainModel oraclesOk argsBase rawRemote).st.events ∧
    getStrCell (mainModel oraclesOk argsBase rawRemote).st.df 0 "instagram_media_id"
      = "DRY_RUN" := by
  exact ⟨by decide, by decide, by decide⟩

/-- C6 (amended): in dry-run mode no login and no upload network call is
issued (remote images may still be downloaded); and every row is either
left untouched in its `posted`/`posted_at`/`instagram_media_id` fields or
— when its image resolved and prepared successfully — marked
`posted=TRUE` with `posted_at` set to the current time and the sentinel
media id `DRY_RUN`. -/
theorem c6_dry_run (O : Oracles) (A : Args) (raw : Df) (hd : A.dryRun = true)
    (hwf : keysCovered raw = true) :
    (∀ e ∈ (mainModel O A raw).st.events, isUploadEv e = false ∧ isLoginEv e = false) ∧
    (∀ i, (getStrCell (mainModel O A raw).st.df i "posted"
             = getStrCell (load_csv O.pdParse raw) i "posted" ∧
           getStrCell (mainModel O A raw).st.df i "posted_at"
             = getStrCell (load_csv O.pdParse raw) i "posted_at" ∧
           getStrCell (mainModel O A raw).st.df i "instagram_media_id"
             = getStrCell (load_csv O.pdParse raw) i "instagram_media_id") ∨
          (getStrCell (mainModel O A raw).st.df i "posted" = "TRUE" ∧
           getStrCell (mainModel O A raw).st.df i "posted_at" = A.now ∧
           getStrCell (mainModel O A raw).st.df i "instagram_media_id" = "DRY_RUN")) := by
  rcases mainModel_spec O A raw with ⟨_, _, hst⟩ | ⟨hdf, _, _, _, _⟩ | ⟨_, _, _, hst⟩
  · rw [hst]
    constructor
    · intro e he
      exact absurd he (List.not_mem_nil e)
    · intro i
      exact Or.inl ⟨rfl, rfl, rfl⟩
  · rw [hd] at hdf
    exact absurd hdf (by decide)
  · set df0 := load_csv O.pdParse raw with hdf0
    set st0 := if A.dryRun then initSt df0 else pushEvent (initSt df0) Event.login with hst0
    have hkeys0 : keysCovered st0.df = true := by
      rw [hst0, startSt_df]
      exact keysCovered_load_csv hwf O.pdParse
    have hbnds : ∀ j ∈ (mainModel O A raw).selected, j < st0.df.rows.length := by
      rw [hst0, startSt_df]
      intro j hj
      exact (mainModel_selected_mask O A raw j hj).1
    have hdisj : ∀ p ∈ st0.log, p.1 ∉ (mainModel O A raw).selected := by
      rw [hst0, startSt_log]
      intro p hp
      exact absurd hp (List.not_mem_nil p)
    obtain ⟨llen, lkeys, lmono, lorig, lall, lframe, lerr, lok, latt, lev⟩ :=
      loop_master O A (mainModel O A raw).selected st0
        (mainModel_selected_nodup O A raw) hbnds hkeys0 hdisj
    rw [hst]
    constructor
    · intro e he
      rcases lev hd e he with he' | he'
      · rw [hst0, startSt_events_dry hd] at he'
        exact absurd he' (List.not_mem_nil e)
      · exact he'
    · intro i
      by_cases hsel : i ∈ (mainModel O A raw).selected
      · obtain ⟨out, hout⟩ := lall i hsel
        cases out with
        | ok pk =>
          rcases lok i pk hout with habs | ⟨_, hp1, hp2, hp3, _, _, hp6⟩
          · rw [hst0, startSt_log] at habs
            exact absurd habs (List.not_mem_nil _)
          · rw [hp6 hd] at hp3
            exact Or.inr ⟨hp1, hp2, hp3⟩
        | error msg =>
          rcases lerr i msg hout with habs | ⟨_, _, hq1, hq2, hq3⟩
          · rw [hst0, startSt_log] at habs
            exact absurd habs (List.not_mem_nil _)
          · rw [hst0, startSt_df] at hq1 hq2 hq3
            exact Or.inl ⟨hq1, hq2, hq3⟩
      · have hfr := lframe i hsel
        have h1 := hfr "posted"
        have h2 := hfr "posted_at"
        have h3 := hfr "instagram_media_id"
        rw [hst0, startSt_df] at h1 h2 h3
        exact Or.inl ⟨h1, h2, h3⟩

/-- Witness for C6 (amended) at a concrete dry run with a remote image:
the dry-run trichotomy holds for the selected row. -/
theorem c6_witness :
    (getStrCell (mainModel oraclesOk argsBase rawRemote).st.df 0 "posted"
       = getStrCell (load_csv oraclesOk.pdParse rawRemote) 0 "posted" ∧
     getStrCell (mainModel oraclesOk argsBase rawRemote).st.df 0 "posted_at"
       = getStrCell (load_csv oraclesOk.pdParse rawRemote) 0 "posted_at" ∧
     getStrCell (mainModel oraclesOk argsBase rawRemote).st.df 0 "instagram_media_id"
       = getStrCell (load_csv oraclesOk.pdParse rawRemote) 0 "instagram_media_id") ∨
    (getStrCell (mainModel oraclesOk argsBase rawRemote).st.df 0 "posted" = "TRUE" ∧
     getStrCell (mainModel oraclesOk argsBase rawRemote).st.df 0 "posted_at"
       = argsBase.now ∧
     getStrCell (mainModel oraclesOk argsBase rawRemote).st.df 0 "instagram_media_id"
       = "DRY_RUN") :=
  (c6_dry_run oraclesOk argsBase rawRemote (by decide) (by decide)).2 0

/-! ### C5: round-trip of load and save -/

theorem mem_cols_addIf {df : Df} (c : String) (f : RowT → CVal) (a : String) :
    a ∈ (if df.cols.contains c then df else dfSetCol df c f).cols ↔ a ∈ df.cols ∨ a = c := by
  split
  next h =>
    constructor
    · exact Or.inl
    · rintro (h' | rfl)
      · exact h'
      · exact contains_iff_memS.mp h
  next h => exact mem_cols_dfSetCol c f a

theorem mem_cols_if_dfSetCol {b : Prop} [Decidable b] {df : Df} {a cset : String}
    {f g : RowT → CVal} (h : a ∈ df.cols) :
    a ∈ (if b then dfSetCol df cset f else dfSetCol df cset g).cols := by
  split <;> exact (mem_cols_dfSetCol _ _ _).mpr (Or.inl h)

theorem cols_peel {df : Df} {a cset : String} {f : RowT → CVal}
    (h : a ∈ (dfSetCol df cset f).cols) : a ∈ df.cols ∨ a = cset :=
  (mem_cols_dfSetCol _ _ _).mp h

theorem cols_peel_if {b : Prop} [Decidable b] {df : Df} {a cset : String}
    {f g : RowT → CVal}
    (h : a ∈ (if b then dfSetCol df cset f else dfSetCol df cset g).cols) :
    a ∈ df.cols ∨ a = cset := by
  revert h
  split <;> exact fun h => (mem_cols_dfSetCol _ _ _).mp h

theorem getStr_if_dfSetCol_ne {b : Prop} [Decidable b] {df : Df} {cset c' : String}
    {f g : RowT → CVal} (h : c' ≠ cset) (i : Nat) :
    getStrCell (if b then dfSetCol df cset f else dfSetCol df cset g) i c'
      = getStrCell df i c' := by
  split <;> exact getStrCell_dfSetCol_ne_col _ _ h

theorem lookup_trimmed_row (r : RowT) :
    ((r.map Prod.fst).map pyStrip).Nodup →
    ∀ c ∈ r.map Prod.fst,
      (r.map (fun kv => (pyStrip kv.1, kv.2))).lookup (pyStrip c) = r.lookup c := by
  induction r with
  | nil =>
    intro _ c hc
    simp at hc
  | cons kv t ih =>
    rcases kv with ⟨k, w⟩
    intro hnd c hc
    simp only [List.map_cons] at hnd
    have hnd' := List.nodup_cons.mp hnd
    rcases List.mem_cons.mp hc with rfl | hc
    · simp [List.lookup_cons]
    · have hne : pyStrip c ≠ pyStrip k := by
        intro he
        apply hnd'.1
        rw [← he]
        exact List.mem_map.mpr ⟨c, hc, rfl⟩
      have hck : c ≠ k := fun he => hne (by rw [he])
      have hb1 : (pyStrip c == pyStrip k) = false := by
        simpa [beq_eq_false_iff_ne] using hne
      have hb2 : (c == k) = false := by simpa [beq_eq_false_iff_ne] using hck
      simp only [List.map_cons, List.lookup_cons, hb1, hb2]
      exact ih hnd'.2 c hc

theorem getStr_trimCols (raw : Df) (hshape : csvShape raw = true)
    (hnd : (raw.cols.map pyStrip).Nodup) (i : Nat) (c : String) (hc : c ∈ raw.cols) :
    getStrCell (trimCols raw) i (pyStrip c) = getStrCell raw i c := by
  by_cases hlen : i < raw.rows.length
  · unfold getStrCell getStrRow
    have hrow : dfRow (trimCols raw) i
        = (dfRow raw i).map (fun kv => (pyStrip kv.1, kv.2)) := by
      unfold trimCols dfRow
      simp only
      rw [List.getD_eq_getElem?_getD, List.getD_eq_getElem?_getD, List.getElem?_map,
          List.getElem?_eq_getElem hlen]
      rfl
    rw [hrow]
    have hkeys : (dfRow raw i).map Prod.fst = raw.cols := by
      unfold csvShape at hshape
      rw [List.all_eq_true] at hshape
      exact beq_iff_eq.mp (hshape _ (dfRow_mem hlen))
    rw [lookup_trimmed_row (dfRow raw i) (by rw [hkeys]; exact hnd) c
      (by rw [hkeys]; exact hc)]
  · rw [getStrCell_oob (by rw [length_rows_trimCols]; exact le_of_not_lt hlen),
        getStrCell_oob (le_of_not_lt hlen)]

theorem getStr_addIf_preserved {df : Df} (cadd : String) (f : RowT → CVal) (i : Nat)
    {c : String} (hc : c ∈ df.cols) :
    getStrCell (if df.cols.contains cadd then df else dfSetCol df cadd f) i c
      = getStrCell df i c := by
  split
  next h => rfl
  next h =>
    apply getStrCell_dfSetCol_ne_col
    intro he
    exact h (contains_iff_memS.mpr (he ▸ hc))

/-- C5 counterexample: a plain load-then-save emits the internal helper
columns `_to_post` and `_date_parsed`, which are neither among the
original columns nor among the actively-written fields. -/
theorem c5_counterexample :
    "_to_post" ∈ (save_csv_atomically (load_csv parseYmd rawA)).cols ∧
    "_date_parsed" ∈ (save_csv_atomically (load_csv parseYmd rawA)).cols ∧
    "_to_post" ∉ rawA.cols ∧
    "_to_post" ∉ (["posted", "posted_at", "instagram_media_id", "error"] : List String) := by
  exact ⟨by decide, by decide, by decide, by decide⟩

/-- C5 (amended): loading a CSV-shaped queue (rows keyed exactly by the
header, header names distinct after trimming) preserves every original
column's values unchanged under its trimmed name, and the saved frame
carries, besides the trimmed original columns, only `posted` and
`caption` (defaulted when missing) and the two internal helper columns
`_to_post` and `_date_parsed` — which `save_csv_atomically` therefore
writes into the CSV, so strict round-trip fidelity fails only by these
additional columns. -/
theorem c5_round_trip (pdParse : String → Option Int) (raw : Df)
    (hshape : csvShape raw = true) (hnd : (raw.cols.map pyStrip).Nodup) :
    (save_csv_atomically (load_csv pdParse raw)).cols = (load_csv pdParse raw).cols ∧
    (∀ c ∈ raw.cols, pyStrip c ∈ (load_csv pdParse raw).cols) ∧
    (∀ c ∈ (load_csv pdParse raw).cols, c ∈ raw.cols.map pyStrip ∨
      c ∈ (["posted", "caption", "_to_post", "_date_parsed"] : List String)) ∧
    (∀ i (c : String), c ∈ raw.cols → pyStrip c ≠ "_to_post" →
      pyStrip c ≠ "_date_parsed" →
      getStrCell (load_csv pdParse raw) i (pyStrip c) = getStrCell raw i c) := by
  refine ⟨rfl, ?_, ?_, ?_⟩
  · intro c hc
    have h1 : pyStrip c ∈ (trimCols raw).cols := by
      unfold trimCols
      exact List.mem_map.mpr ⟨c, hc, rfl⟩
    simp only [load_csv]
    exact mem_cols_if_dfSetCol ((mem_cols_dfSetCol _ _ _).mpr (Or.inl
      ((mem_cols_addIf _ _ _).mpr (Or.inl ((mem_cols_addIf _ _ _).mpr (Or.inl h1))))))
  · intro c hc
    simp only [load_csv] at hc
    rcases cols_peel_if hc with hc | rfl
    · rcases cols_peel hc with hc | rfl
      · rcases (mem_cols_addIf _ _ _).mp hc with hc | rfl
        · rcases (mem_cols_addIf _ _ _).mp hc with hc | rfl
          · left
            exact hc
          · right
            decide
        · right
          decide
      · right
        decide
    · right
      decide
  · intro i c hc hne1 hne2
    have h1 : pyStrip c ∈ (trimCols raw).cols := by
      unfold trimCols
      exact List.mem_map.mpr ⟨c, hc, rfl⟩
    have h2 : pyStrip c ∈ (if (trimCols raw).cols.contains "posted" then trimCols raw
        else dfSetCol (trimCols raw) "posted" fun _ => CVal.str "").cols :=
      (mem_cols_addIf _ _ _).mpr (Or.inl h1)
    simp only [load_csv]
    rw [getStr_if_dfSetCol_ne hne2 i, getStrCell_dfSetCol_ne_col _ _ hne1,
        getStr_addIf_preserved "caption" _ i h2, getStr_addIf_preserved "posted" _ i h1,
        getStr_trimCols raw hshape hnd i c hc]

/-- Witness for C5 (amended): the known column `date` of the concrete
queue survives the round trip unchanged. -/
theorem c5_witness :
    pyStrip "date" ∈ (load_csv parseYmd rawA).cols ∧
    getStrCell (load_csv parseYmd rawA) 0 (pyStrip "date") = getStrCell rawA 0 "date" := by
  have h := c5_round_trip parseYmd rawA (by decide) (by decide)
  exact ⟨h.2.1 "date" (by decide), h.2.2.2 0 "date" (by decide) (by decide) (by decide)⟩

/-! ### C8: temp-file cleanup -/

/-- C8: evaluation of the code at the failing input — a remote image
whose download raises after the temp file was created. The temp file
`tmp0` is created, never removed, and remains on disk at the end of the
run, while the row records the download error. -/
theorem c8_download_failure_leaks_temp :
    (mainModel oraclesDlFail argsBase rawRemote).st.liveTemps = ["tmp0"] ∧
    Event.tempCreated "tmp0" ∈ (mainModel oraclesDlFail argsBase rawRemote).st.events ∧
    Event.tempRemoved "tmp0" ∉ (mainModel oraclesDlFail argsBase rawRemote).st.events ∧
    getStrCell (mainModel oraclesDlFail argsBase rawRemote).st.df 0 "error"
      = "download failed: https://x/y.jpg" := by
  exact ⟨by decide, by decide, by decide, by decide⟩
